import Mathlib

/-!
Verification of the HogQL CST-to-AST converter
(`posthog/hogql/parser.py`) against its natural-language specification.

The converter is embedded shallowly: the ANTLR parse tree is modelled by
the inductive type `CST` (one constructor per grammar production handled
by a `visit…` method of `HogQLParseTreeConverter`; productions whose
method unconditionally raises `NotImplementedError("Unsupported node: …")`
are collapsed into the single constructor `unsupportedNode`, and methods
that merely forward to their single child via `visitChildren` are
flattened away).  Python exceptions become the `Except Err` monad.
AST nodes (`posthog/hogql/ast.py`, not among the sampled sources) are
modelled from the spec, section 3, as plain immutable records that store
exactly the field values the converter supplies.
-/

namespace HogQL

/-- Python runtime values that can be stored in an `ast.Constant`:
null, booleans, integers, floats and strings (spec section 3).
A float is carried by the literal source text it was produced from
(`float(text)` in `visitNumberLiteral`); the converter never computes
with floats, it only stores and type-tests them. -/
inductive Value where
  | null
  | bool (b : Bool)
  | int (n : Int)
  | float (text : String)
  | str (s : String)

/-- Python `isinstance(v, int)`.  Crucially, `bool` is a subclass of
`int` in Python, so booleans pass this test. -/
def Value.isInstInt : Value → Bool
  | .int _ => true
  | .bool _ => true
  | _ => false

/-- Python `isinstance(v, str)`. -/
def Value.isInstStr : Value → Bool
  | .str _ => true
  | _ => false

/-- Binary arithmetic operators (`ast.BinaryOperationType`). -/
inductive BinOp where
  | add | sub | mult | div | mod

/-- Comparison operators (`ast.CompareOperationType`). -/
inductive CmpOp where
  | eq | notEq | lt | ltE | gt | gtE
  | like | notLike | iLike | notILike | inOp | notIn

/-- The AST produced by the converter, modelled from the spec, section 3
(`posthog/hogql/ast.py` is not among the sampled sources).  Nodes are
plain records storing the converter-supplied values:
`fieldAccessChain.chain` stores the exact values the converter passes
(identifier segments are strings, an array-access key contributes the
key's constant `Value`); `selectQuery.limit`/`offset` store the constant
value accepted by the converter's `isinstance(…, int)` check. -/
inductive Expr where
  | constant (value : Value)
  | fieldAccess (field : String)
  | fieldAccessChain (chain : List Value)
  | placeholder (field : String)
  | binaryOperation (left right : Expr) (op : BinOp)
  | compareOperation (left right : Expr) (op : CmpOp)
  | andE (exprs : List Expr)
  | orE (exprs : List Expr)
  | notE (expr : Expr)
  | call (name : String) (args : List Expr)
  | joinExpr (table : Expr) (tableFinal : Option Bool) (aliasName : Option String)
      (joinType : Option String) (joinConstraint : Option Expr) (joinNext : Option Expr)
  | selectQuery (select : List Expr) (selectFrom : Option Expr)
      (whereE prewhere having : Option Expr) (limit offset : Option Value)

/-- Python `type(e).__name__`, used in one error message of
`visitColumnExprArrayAccess`. -/
def Expr.className : Expr → String
  | .constant _ => "Constant"
  | .fieldAccess _ => "FieldAccess"
  | .fieldAccessChain _ => "FieldAccessChain"
  | .placeholder _ => "Placeholder"
  | .binaryOperation _ _ _ => "BinaryOperation"
  | .compareOperation _ _ _ => "CompareOperation"
  | .andE _ => "And"
  | .orE _ => "Or"
  | .notE _ => "Not"
  | .call _ _ => "Call"
  | .joinExpr _ _ _ _ _ _ => "JoinExpr"
  | .selectQuery _ _ _ _ _ _ _ => "SelectQuery"

/-- Is the node an `And`?  (`isinstance(e, ast.And)`). -/
def Expr.isAnd : Expr → Bool
  | .andE _ => true
  | _ => false

/-- Is the node an `Or`?  (`isinstance(e, ast.Or)`). -/
def Expr.isOr : Expr → Bool
  | .orE _ => true
  | _ => false

/-- Python duck-typed attribute access `e.field`, used by
`visitNestedIdentifier` on the results of visiting identifiers
(each is a `FieldAccess`, or a `Placeholder` when the identifier was a
template string; both carry a `field` attribute). -/
def Expr.fieldAttr : Expr → Option String
  | .fieldAccess f => some f
  | .placeholder f => some f
  | _ => none

/-- The exceptions `parser.py` raises while converting:
`NotImplementedError` for unsupported grammar productions, the plain
`Exception` used by the LIMIT/OFFSET checks, and an `attributeError`
standing for the `AttributeError`/`TypeError` Python would raise when a
visit result has an unexpected dynamic type. -/
inductive Err where
  | notImplemented (msg : String)
  | exception (msg : String)
  | attributeError (msg : String)

/-- A `visit` call in Python can return an AST node, a list of nodes
(`visitColumnExprList`, `visitColumnArgList`) or a plain string
(the `visitJoinOp…` methods). -/
inductive VisitResult where
  | expr (e : Expr)
  | exprList (es : List Expr)
  | str (s : String)

/-- Coerce a visit result to a single AST node (Python call sites that
use the result as an expression). -/
def expectExpr : VisitResult → Except Err Expr
  | .expr e => .ok e
  | _ => .error (.attributeError "expected an expression node")

/-- Coerce a visit result to a node list (call sites that iterate it). -/
def expectList : VisitResult → Except Err (List Expr)
  | .exprList es => .ok es
  | _ => .error (.attributeError "expected a node list")

/-- Coerce a visit result to a string (the join-op call site). -/
def expectStr : VisitResult → Except Err String
  | .str s => .ok s
  | _ => .error (.attributeError "expected a string")

/-- Operator token of a `ColumnExprPrecedence1` context: exactly one of
`SLASH`, `ASTERISK`, `PERCENT` matched, or some other token whose text
is `ctx.operator.text`. -/
inductive P1Op where
  | slash | asterisk | percent
  | other (text : String)

/-- Operator token of a `ColumnExprPrecedence2` context (`PLUS`, `DASH`,
`CONCAT`, or another token); the unsupported cases carry
`ctx.operator.text`. -/
inductive P2Op where
  | plus | dash
  | concat (text : String)
  | other (text : String)

/-- Operator token of a `ColumnExprPrecedence3` context; `other` carries
`ctx.getText()` used by the fallback error message. -/
inductive P3Op where
  | eqSingle | eqDouble | notEqTok | ltTok | leTok | gtTok | geTok
  | likeTok | ilikeTok | inTok
  | other (text : String)

/-- The concrete syntax tree handed to `HogQLParseTreeConverter`.
One constructor per grammar production the converter dispatches on;
`Bool` fields model the presence of optional tokens/clauses the
converter only tests (`ctx.GLOBAL()`, `ctx.withClause()`, …).
Each visit method that unconditionally raises
`NotImplementedError("Unsupported node: X")` is represented by
`unsupportedNode "X"`.  Productions whose method forwards to the single
child (`visitColumnExprIdentifier`, `visitColumnExprLiteral`,
`visitColumnsExprColumn` via `visitChildren`, …) are flattened: their
child appears directly. -/
inductive CST where
  | selectQueryC (inner : CST)
  | selectUnionStmt (selects : List CST)
  | selectStmtWithParens (inner : CST)
  | selectStmt (columns : Option CST) (fromC : Option CST) (whereC : Option CST)
      (prewhereC : Option CST) (havingC : Option CST)
      (limitC : Option (Option (CST × Option CST)))
      (withC topC arrayJoinC windowC groupByC orderByC limitByC settingsC : Bool)
  | fromClause (join : CST)
  | whereClause (e : CST)
  | prewhereClause (e : CST)
  | havingClause (e : CST)
  | joinExprOp (globalTok localTok : Bool) (join1 join2 : CST)
      (op : Option CST) (constraint : CST)
  | joinExprTable (sample : Bool) (finalTok : Bool) (table : CST)
  | joinExprParens (join : CST)
  | joinOpInner (leftTok allTok antiTok anyTok asofTok : Bool)
  | joinOpLeftRight (leftTok rightTok outerTok semiTok allTok antiTok anyTok asofTok : Bool)
  | joinOpFull (leftTok outerTok allTok anyTok : Bool)
  | joinConstraintClause (usingTok : Bool) (exprs : CST)
  | columnExprList (cols : List CST)
  | columnsExprAsterisk
  | columnExprAsterisk
  | columnExprWithComment (e : CST)
  | columnExprAnd (l r : CST)
  | columnExprOr (l r : CST)
  | columnExprNot (e : CST)
  | columnExprParens (e : CST)
  | columnExprIsNull (e : CST) (notTok : Bool)
  | columnExprArrayAccess (obj key : CST)
  | columnExprPrecedence1 (l : CST) (op : P1Op) (r : CST)
  | columnExprPrecedence2 (l : CST) (op : P2Op) (r : CST)
  | columnExprPrecedence3 (l : CST) (op : P3Op) (notTok globalTok : Bool) (r : CST)
  | columnExprFunction (name : String) (hasExprList : Bool) (argList : Option CST)
  | columnArgList (args : List CST)
  | columnExprSubquery (sel : CST)
  | columnsExprSubquery (sel : CST)
  | columnIdentifier (table : Option CST) (nested : CST)
  | nestedIdentifier (first : CST) (rest : List CST)
  | identifier (text : String)
  | identifierTS (ts : CST)
  | templateString (content : String)
  | tableIdentifier (db : Option String) (name : String)
  | tableExprSubquery (sel : CST)
  | tableExprAlias (table : CST) (aliasText : String)
  | numberLiteral (text : String)
  | nullLiteral
  | stringLiteral (content : String)
  | unsupportedNode (name : String)

mutual

/-- ANTLR's `ctx.getText()` for the identifier-shaped contexts on which
the converter calls it (`visitColumnIdentifier`): the concatenated
source text of the node, dots included.  A template string's text keeps
its surrounding braces. -/
def CST.text : CST → String
  | .identifier s => s
  | .identifierTS ts => CST.text ts
  | .templateString s => "\x7b" ++ s ++ "\x7d"
  | .nestedIdentifier first rest => CST.text first ++ CST.textDotted rest
  | .tableIdentifier db name =>
      (match db with
        | some d => d ++ "."
        | none => "") ++ name
  | .columnIdentifier tbl nested =>
      (match tbl with
        | some t => CST.text t ++ "."
        | none => "") ++ CST.text nested
  | _ => ""

/-- Text of the `('.' identifier)*` tail of a nested identifier. -/
def CST.textDotted : List CST → String
  | [] => ""
  | c :: cs => "." ++ CST.text c ++ CST.textDotted cs

end

/-- The join-attachment loop of `visitJoinExprOp` (lines 167-174): walk
`join1`'s chain along `join_expr` links to the first node whose link is
unset, then set that node's `join_expr`, `join_constraint` and
`join_type`.  The Python loop mutates the tail in place and returns the
unchanged head; here the chain is rebuilt with the same shape.  Walking
a non-`JoinExpr` value would be a Python `AttributeError`. -/
def attachJoin (j1 j2 : Expr) (joinType : String) (constraint : Expr) : Except Err Expr :=
  match j1 with
  | .joinExpr t tf al jt jc (some next) => do
      let next' ← attachJoin next j2 joinType constraint
      .ok (.joinExpr t tf al jt jc (some next'))
  | .joinExpr t tf al _ _ none =>
      .ok (.joinExpr t tf al (some joinType) (some constraint) (some j2))
  | _ => .error (.attributeError "join_expr")

/-- Assemble the token list built by the `visitJoinOp…` methods:
`" ".join(tokens)`. -/
def joinTokens (tokens : List String) : String :=
  String.intercalate " " tokens

/-- Python `"." in text` (`visitNumberLiteral`). -/
def containsDot (s : String) : Bool :=
  s.data.any (fun c => c = '.')

/-- ASCII lower-casing of one character. -/
def lowerChar (c : Char) : Char :=
  if 65 ≤ c.toNat ∧ c.toNat ≤ 90 then Char.ofNat (c.toNat + 32) else c

/-- Python `text.lower()`; identifiers matched by the grammar are ASCII,
so ASCII lower-casing is exact on every input the check can see. -/
def pyLower (s : String) : String :=
  String.mk (s.data.map lowerChar)

/-- Python `int(text)` on the unsigned decimal integer literals the
grammar produces. -/
def pyInt (text : String) : Int :=
  Int.ofNat (text.data.foldl (fun acc c => acc * 10 + (c.toNat - 48)) 0)

/-- Duck-typed `identifier.field` over a list of visited identifiers
(`visitNestedIdentifier`); fails like Python would if some element has
no `field` attribute.  The resulting segments are strings. -/
def fieldsOf : List Expr → Except Err (List Value)
  | [] => .ok []
  | e :: es => do
      match e.fieldAttr with
      | some f => do
          let fs ← fieldsOf es
          .ok (.str f :: fs)
      | none => .error (.attributeError "field")

/-- The operator-token dispatch of `visitColumnExprPrecedence1`:
`SLASH`, then `ASTERISK`, then `PERCENT`, else a raised
`NotImplementedError` carrying the operator text. -/
def p1OpResolve : P1Op → Except Err BinOp
  | .slash => pure BinOp.div
  | .asterisk => pure BinOp.mult
  | .percent => pure BinOp.mod
  | .other t => .error (.notImplemented ("Unsupported ColumnExprPrecedence1: " ++ t))

/-- The operator-token dispatch of `visitColumnExprPrecedence2`. -/
def p2OpResolve : P2Op → Except Err BinOp
  | .plus => pure BinOp.add
  | .dash => pure BinOp.sub
  | .concat t => .error (.notImplemented ("Yet unsupported text concat operation: " ++ t))
  | .other t => .error (.notImplemented ("Unsupported ColumnExprPrecedence2: " ++ t))

/-- The operator-token dispatch of `visitColumnExprPrecedence3`,
including the `NOT` variants and the rejected `GLOBAL IN`. -/
def p3OpResolve (op : P3Op) (notTok globalTok : Bool) : Except Err CmpOp :=
  match op with
  | .eqSingle => pure CmpOp.eq
  | .eqDouble => pure CmpOp.eq
  | .notEqTok => pure CmpOp.notEq
  | .ltTok => pure CmpOp.lt
  | .leTok => pure CmpOp.ltE
  | .gtTok => pure CmpOp.gt
  | .geTok => pure CmpOp.gtE
  | .likeTok => pure (if notTok then CmpOp.notLike else CmpOp.like)
  | .ilikeTok => pure (if notTok then CmpOp.notILike else CmpOp.iLike)
  | .inTok =>
      if globalTok then .error (.notImplemented "Unsupported node: IN GLOBAL")
      else pure (if notTok then CmpOp.notIn else CmpOp.inOp)
  | .other t => .error (.notImplemented ("Unsupported ColumnExprPrecedence3: " ++ t))

mutual

/-- The tree-to-AST conversion: `HogQLParseTreeConverter.visit`,
dispatched on the grammar production exactly as the Python visitor
methods are.  Each match arm is named after, and translated from, the
corresponding `visit…` method in `posthog/hogql/parser.py`. -/
def visit : CST → Except Err VisitResult
  -- visitSelectQuery: `self.visit(ctx.selectUnionStmt() or ctx.selectStmt())`
  | .selectQueryC inner => visit inner
  -- visitSelectUnionStmt
  | .selectUnionStmt selects =>
      match selects with
      | [s] => visit s
      | _ => .error (.notImplemented "Unsupported: UNION ALL")
  -- visitSelectStmtWithParens
  | .selectStmtWithParens inner => visit inner
  -- visitSelectStmt
  | .selectStmt columns fromC whereC prewhereC havingC limitC
      withC topC arrayJoinC windowC groupByC orderByC limitByC settingsC => do
      let select ← visitOptList columns
      let selectFrom ← visitOpt fromC
      let whereE ← visitOpt whereC
      let prewhere ← visitOpt prewhereC
      let having ← visitOpt havingC
      let limitOffset ← visitLimitClause limitC
      if withC then .error (.notImplemented "Unsupported: SelectStmt.withClause()")
      else if topC then .error (.notImplemented "Unsupported: SelectStmt.topClause()")
      else if arrayJoinC then .error (.notImplemented "Unsupported: SelectStmt.arrayJoinClause()")
      else if windowC then .error (.notImplemented "Unsupported: SelectStmt.windowClause()")
      else if groupByC then .error (.notImplemented "Unsupported: SelectStmt.groupByClause()")
      else if orderByC then .error (.notImplemented "Unsupported: SelectStmt.orderByClause()")
      else if limitByC then .error (.notImplemented "Unsupported: SelectStmt.limitByClause()")
      else if settingsC then .error (.notImplemented "Unsupported: SelectStmt.settingsClause()")
      else .ok (.expr (.selectQuery select selectFrom whereE prewhere having
        limitOffset.1 limitOffset.2))
  -- visitFromClause
  | .fromClause join => visit join
  -- visitWhereClause / visitPrewhereClause / visitHavingClause
  | .whereClause e => visit e
  | .prewhereClause e => visit e
  | .havingClause e => visit e
  -- visitJoinExprOp
  | .joinExprOp globalTok localTok join1C join2C opC constraintC => do
      if globalTok then .error (.notImplemented "Unsupported: GLOBAL JOIN")
      else if localTok then .error (.notImplemented "Unsupported: LOCAL JOIN")
      else do
        let join1 ← expectExpr (← visit join1C)
        let join2 ← expectExpr (← visit join2C)
        let joinType ← visitJoinType opC
        let joinConstraint ← expectExpr (← visit constraintC)
        let joined ← attachJoin join1 join2 joinType joinConstraint
        .ok (.expr joined)
  -- visitJoinExprTable
  | .joinExprTable sample finalTok tableC => do
      if sample then .error (.notImplemented "Unsupported: SAMPLE (JoinExprTable.sampleClause)")
      else do
        let table ← expectExpr (← visit tableC)
        let tableFinal : Option Bool := if finalTok then some true else none
        match table with
        | .joinExpr t _ al jt jc jn =>
            -- visitTableExprAlias returned a JoinExpr to pass the alias:
            -- only its table_final field is set
            .ok (.expr (.joinExpr t tableFinal al jt jc jn))
        | other => .ok (.expr (.joinExpr other tableFinal none none none none))
  -- visitJoinExprParens
  | .joinExprParens join => visit join
  -- visitJoinOpInner (the code appends "INNER" when ctx.LEFT() is set)
  | .joinOpInner leftTok allTok antiTok anyTok asofTok =>
      .ok (.str (joinTokens
        ((if leftTok then ["INNER"] else []) ++
         (if allTok then ["ALL"] else []) ++
         (if antiTok then ["ANTI"] else []) ++
         (if anyTok then ["ANY"] else []) ++
         (if asofTok then ["ASOF"] else []))))
  -- visitJoinOpLeftRight
  | .joinOpLeftRight leftTok rightTok outerTok semiTok allTok antiTok anyTok asofTok =>
      .ok (.str (joinTokens
        ((if leftTok then ["LEFT"] else []) ++
         (if rightTok then ["RIGHT"] else []) ++
         (if outerTok then ["OUTER"] else []) ++
         (if semiTok then ["SEMI"] else []) ++
         (if allTok then ["ALL"] else []) ++
         (if antiTok then ["ANTI"] else []) ++
         (if anyTok then ["ANY"] else []) ++
         (if asofTok then ["ASOF"] else []))))
  -- visitJoinOpFull (the code appends "FULL" when ctx.LEFT() is set)
  | .joinOpFull leftTok outerTok allTok anyTok =>
      .ok (.str (joinTokens
        ((if leftTok then ["FULL"] else []) ++
         (if outerTok then ["OUTER"] else []) ++
         (if allTok then ["ALL"] else []) ++
         (if anyTok then ["ANY"] else []))))
  -- visitJoinConstraintClause
  | .joinConstraintClause usingTok exprsC => do
      if usingTok then .error (.notImplemented "Unsupported: JOIN ... USING")
      else do
        let columnExprList ← expectList (← visit exprsC)
        match columnExprList with
        | [e] => .ok (.expr e)
        | _ => .error (.notImplemented "Unsupported: JOIN ... ON with multiple expressions")
  -- visitColumnExprList (also the shape used by visitColumnsExpr* children)
  | .columnExprList cols => do
      .ok (.exprList (← visitList cols))
  -- visitColumnsExprAsterisk / visitColumnExprAsterisk
  | .columnsExprAsterisk => .ok (.expr (.fieldAccess "*"))
  | .columnExprAsterisk => .ok (.expr (.fieldAccess "*"))
  -- visitColumnExprWithComment
  | .columnExprWithComment e => visit e
  -- visitColumnExprAnd
  | .columnExprAnd l r => do
      let left ← expectExpr (← visit l)
      let leftArray := match left with
        | .andE es => es
        | e => [e]
      let right ← expectExpr (← visit r)
      let rightArray := match right with
        | .andE es => es
        | e => [e]
      .ok (.expr (.andE (leftArray ++ rightArray)))
  -- visitColumnExprOr
  | .columnExprOr l r => do
      let left ← expectExpr (← visit l)
      let leftArray := match left with
        | .orE es => es
        | e => [e]
      let right ← expectExpr (← visit r)
      let rightArray := match right with
        | .orE es => es
        | e => [e]
      .ok (.expr (.orE (leftArray ++ rightArray)))
  -- visitColumnExprNot
  | .columnExprNot e => do
      .ok (.expr (.notE (← expectExpr (← visit e))))
  -- visitColumnExprParens
  | .columnExprParens e => visit e
  -- visitColumnExprIsNull
  | .columnExprIsNull e notTok => do
      let inner ← expectExpr (← visit e)
      .ok (.expr (.compareOperation inner (.constant .null)
        (if notTok then .notEq else .eq)))
  -- visitColumnExprArrayAccess
  | .columnExprArrayAccess objC keyC => do
      let object ← expectExpr (← visit objC)
      let property ← expectExpr (← visit keyC)
      match property with
      | .constant v =>
          match object with
          | .fieldAccess f => .ok (.expr (.fieldAccessChain [.str f, v]))
          | .fieldAccessChain ch => .ok (.expr (.fieldAccessChain (ch ++ [v])))
          | _ => .error (.notImplemented
              ("Unsupported combination for ColumnExprArrayAccess: " ++
                object.className ++ "[" ++ (Expr.constant v).className ++ "]"))
      | _ => .error (.notImplemented "Array access must be performed with a constant.")
  -- visitColumnExprPrecedence1
  | .columnExprPrecedence1 l op r => do
      let binOp ← p1OpResolve op
      let left ← expectExpr (← visit l)
      let right ← expectExpr (← visit r)
      .ok (.expr (.binaryOperation left right binOp))
  -- visitColumnExprPrecedence2
  | .columnExprPrecedence2 l op r => do
      let binOp ← p2OpResolve op
      let left ← expectExpr (← visit l)
      let right ← expectExpr (← visit r)
      .ok (.expr (.binaryOperation left right binOp))
  -- visitColumnExprPrecedence3
  | .columnExprPrecedence3 l op notTok globalTok r => do
      let cmpOp ← p3OpResolve op notTok globalTok
      let left ← expectExpr (← visit l)
      let right ← expectExpr (← visit r)
      .ok (.expr (.compareOperation left right cmpOp))
  -- visitColumnExprFunction
  | .columnExprFunction name hasExprList argList => do
      if hasExprList then .error (.notImplemented "Functions that return functions are not supported")
      else do
        let args ← visitOptList argList
        .ok (.expr (.call name args))
  -- visitColumnArgList
  | .columnArgList args => do
      .ok (.exprList (← visitList args))
  -- visitColumnExprSubquery / visitColumnsExprSubquery / visitTableExprSubquery
  | .columnExprSubquery sel => visit sel
  | .columnsExprSubquery sel => visit sel
  | .tableExprSubquery sel => visit sel
  -- visitColumnIdentifier
  | .columnIdentifier tableC nestedC => do
      let table ← visitOpt tableC
      let nested ← expectExpr (← visit nestedC)
      match table with
      | none =>
          match nested with
          | .fieldAccess f =>
              let text := pyLower (CST.text (.columnIdentifier tableC nestedC))
              if text = "true" then .ok (.expr (.constant (.bool true)))
              else if text = "false" then .ok (.expr (.constant (.bool false)))
              else .ok (.expr (.fieldAccess f))
          | e => .ok (.expr e)
      | some tbl => do
          let chain1 : List Value ← match tbl with
            | .fieldAccess f => pure [.str f]
            | .fieldAccessChain ch => pure ch
            | _ => .error (.notImplemented
                ("Unsupported property access: " ++ CST.text (.columnIdentifier tableC nestedC)))
          let chain2 : List Value ← match nested with
            | .fieldAccess f => pure [.str f]
            | .fieldAccessChain ch => pure ch
            | _ => .error (.notImplemented
                ("Unsupported property access: " ++ CST.text (.columnIdentifier tableC nestedC)))
          .ok (.expr (.fieldAccessChain (chain1 ++ chain2)))
  -- visitNestedIdentifier (the grammar guarantees at least one identifier)
  | .nestedIdentifier first rest => do
      let id0 ← expectExpr (← visit first)
      let idRest ← visitList rest
      match idRest with
      | [] => .ok (.expr id0)
      | _ => do
          let fields ← fieldsOf (id0 :: idRest)
          .ok (.expr (.fieldAccessChain fields))
  -- visitIdentifier
  | .identifier text => .ok (.expr (.fieldAccess text))
  | .identifierTS ts => visit ts
  -- visitTemplateString (parse_string_literal, from posthog/hogql/parser_utils.py,
  -- is not among the sampled sources; modelled from the spec: it strips the
  -- surrounding braces/quotes, so the constructor carries the content directly)
  | .templateString content => .ok (.expr (.placeholder content))
  -- visitTableIdentifier
  | .tableIdentifier db name =>
      match db with
      | some d => .ok (.expr (.fieldAccessChain [.str d, .str name]))
      | none => .ok (.expr (.fieldAccess name))
  -- visitTableExprAlias
  | .tableExprAlias tableC aliasText => do
      let table ← expectExpr (← visit tableC)
      .ok (.expr (.joinExpr table none (some aliasText) none none none))
  -- visitNumberLiteral: integer vs float decided by a decimal point in the text
  | .numberLiteral text =>
      if containsDot text then .ok (.expr (.constant (.float text)))
      else .ok (.expr (.constant (.int (pyInt text))))
  -- visitLiteral for NULL_SQL and STRING_LITERAL (parse_string_literal is
  -- modelled from the spec: the constructor carries the unescaped content)
  | .nullLiteral => .ok (.expr (.constant .null))
  | .stringLiteral content => .ok (.expr (.constant (.str content)))
  -- every visit method that unconditionally raises
  -- NotImplementedError("Unsupported node: <name>")
  | .unsupportedNode name => .error (.notImplemented ("Unsupported node: " ++ name))

/-- List-comprehension visits (`[self.visit(c) for c in …]`). -/
def visitList : List CST → Except Err (List Expr)
  | [] => .ok []
  | c :: cs => do
      let e ← expectExpr (← visit c)
      let es ← visitList cs
      .ok (e :: es)

/-- The pervasive Python pattern
`self.visit(ctx.X()) if ctx.X() else None` for optional children. -/
def visitOpt : Option CST → Except Err (Option Expr)
  | some c => do pure (some (← expectExpr (← visit c)))
  | none => pure none

/-- The Python pattern `self.visit(ctx.X()) if ctx.X() else []` for
optional list-valued children (`visitSelectStmt`'s projection list,
`visitColumnExprFunction`'s arguments). -/
def visitOptList : Option CST → Except Err (List Expr)
  | some c => do expectList (← visit c)
  | none => pure []

/-- The LIMIT/OFFSET block of `visitSelectStmt` (lines 65-81): when a
limit clause with a limit expression is present, its first argument must
convert to a `Constant` whose value passes `isinstance(…, int)`, and a
second argument, when present, must do the same for OFFSET; any other
result raises the corresponding plain `Exception`. -/
def visitLimitClause : Option (Option (CST × Option CST)) →
    Except Err (Option Value × Option Value)
  | some (some (e1, e2)) => do
      let limitNode ← expectExpr (← visit e1)
      let limit ← match limitNode with
        | .constant v =>
            if v.isInstInt then pure (some v)
            else .error (.exception "LIMIT must be an integer")
        | _ => .error (.exception "LIMIT must be an integer")
      let offset ← match e2 with
        | some e2' => do
            let offsetNode ← expectExpr (← visit e2')
            match offsetNode with
            | .constant v =>
                if v.isInstInt then pure (some v)
                else .error (.exception "OFFSET must be an integer")
            | _ => .error (.exception "OFFSET must be an integer")
        | none => pure none
      pure (limit, offset)
  | _ => pure (none, none)

/-- The join-type computation of `visitJoinExprOp` (lines 161-164):
`f"{self.visit(ctx.joinOp())} JOIN"` when a join operator is present,
else the bare `"JOIN"`. -/
def visitJoinType : Option CST → Except Err String
  | some o => do pure ((← expectStr (← visit o)) ++ " JOIN")
  | none => pure "JOIN"

end

/-- Placeholder lookup: Python `placeholders[name]` membership test. -/
def lookupBinding : List (String × Expr) → String → Option Expr
  | [], _ => none
  | (k, v) :: rest, name => if k = name then some v else lookupBinding rest name

mutual

/-- Modelled from the spec, section 4.5: `replace_placeholders` from
`posthog/hogql/placeholders.py` is not among the sampled sources.  The
substitutor walks the AST depth-first; a `Placeholder` whose name is
bound is replaced by the bound expression, an unbound `Placeholder` is
left unresolved, and every other node is rebuilt with substituted
children. -/
def replacePlaceholders (b : List (String × Expr)) : Expr → Expr
  | .placeholder f =>
      match lookupBinding b f with
      | some e => e
      | none => .placeholder f
  | .constant v => .constant v
  | .fieldAccess f => .fieldAccess f
  | .fieldAccessChain ch => .fieldAccessChain ch
  | .binaryOperation l r op =>
      .binaryOperation (replacePlaceholders b l) (replacePlaceholders b r) op
  | .compareOperation l r op =>
      .compareOperation (replacePlaceholders b l) (replacePlaceholders b r) op
  | .andE es => .andE (replacePlaceholdersList b es)
  | .orE es => .orE (replacePlaceholdersList b es)
  | .notE e => .notE (replacePlaceholders b e)
  | .call n args => .call n (replacePlaceholdersList b args)
  | .joinExpr t tf al jt jc jn =>
      .joinExpr (replacePlaceholders b t) tf al jt
        (replacePlaceholdersOpt b jc) (replacePlaceholdersOpt b jn)
  | .selectQuery s f w p h l o =>
      .selectQuery (replacePlaceholdersList b s) (replacePlaceholdersOpt b f)
        (replacePlaceholdersOpt b w) (replacePlaceholdersOpt b p)
        (replacePlaceholdersOpt b h) l o

/-- Substitution mapped over a child list. -/
def replacePlaceholdersList (b : List (String × Expr)) : List Expr → List Expr
  | [] => []
  | e :: es => replacePlaceholders b e :: replacePlaceholdersList b es

/-- Substitution mapped over an optional child. -/
def replacePlaceholdersOpt (b : List (String × Expr)) : Option Expr → Option Expr
  | none => none
  | some e => some (replacePlaceholders b e)

end

mutual

/-- Boolean-flattening well-formedness (spec section 4.4): no `And` node
has an `And` as a direct child and no `Or` node has an `Or` as a direct
child, recursively at every node of the tree. -/
def flatE : Expr → Bool
  | .constant _ => true
  | .fieldAccess _ => true
  | .fieldAccessChain _ => true
  | .placeholder _ => true
  | .binaryOperation l r _ => flatE l && flatE r
  | .compareOperation l r _ => flatE l && flatE r
  | .andE es => es.all (fun e => !e.isAnd) && flatL es
  | .orE es => es.all (fun e => !e.isOr) && flatL es
  | .notE e => flatE e
  | .call _ args => flatL args
  | .joinExpr t _ _ _ jc jn => flatE t && flatO jc && flatO jn
  | .selectQuery s f w p h _ _ => flatL s && flatO f && flatO w && flatO p && flatO h

/-- `flatE` over a child list. -/
def flatL : List Expr → Bool
  | [] => true
  | e :: es => flatE e && flatL es

/-- `flatE` over an optional child. -/
def flatO : Option Expr → Bool
  | none => true
  | some e => flatE e

end

mutual

/-- Field-chain well-formedness (spec section 3): every
`FieldAccessChain` in the tree has at least 2 segments. -/
def chainOkE : Expr → Bool
  | .constant _ => true
  | .fieldAccess _ => true
  | .fieldAccessChain ch => decide (2 ≤ ch.length)
  | .placeholder _ => true
  | .binaryOperation l r _ => chainOkE l && chainOkE r
  | .compareOperation l r _ => chainOkE l && chainOkE r
  | .andE es => chainOkL es
  | .orE es => chainOkL es
  | .notE e => chainOkE e
  | .call _ args => chainOkL args
  | .joinExpr t _ _ _ jc jn => chainOkE t && chainOkO jc && chainOkO jn
  | .selectQuery s f w p h _ _ =>
      chainOkL s && chainOkO f && chainOkO w && chainOkO p && chainOkO h

/-- `chainOkE` over a child list. -/
def chainOkL : List Expr → Bool
  | [] => true
  | e :: es => chainOkE e && chainOkL es

/-- `chainOkE` over an optional child. -/
def chainOkO : Option Expr → Bool
  | none => true
  | some e => chainOkE e

end

/-- Both structural invariants of one expression. -/
def okE (e : Expr) : Prop := flatE e = true ∧ chainOkE e = true

/-- Both structural invariants of an expression list. -/
def okL (es : List Expr) : Prop := flatL es = true ∧ chainOkL es = true

/-- Both structural invariants of an optional expression. -/
def okO (o : Option Expr) : Prop := flatO o = true ∧ chainOkO o = true

/-- Both structural invariants of a visit result. -/
def okR : VisitResult → Prop
  | .expr e => okE e
  | .exprList es => okL es
  | .str _ => True

/-- The table/join-type/constraint triples of a join chain, in chain
order, following the `join_expr` links from head to tail. -/
def chainList : Expr → List (Expr × Option String × Option Expr)
  | .joinExpr t _ _ jt jc (some next) => (t, jt, jc) :: chainList next
  | .joinExpr t _ _ jt jc none => [(t, jt, jc)]
  | _ => []

/-- The operand element list the boolean flattener splices for `AND`
(`left.exprs if isinstance(left, ast.And) else [left]`). -/
def andOperands (e : Expr) : List Expr :=
  match e with
  | .andE es => es
  | e => [e]

/-- The operand element list the boolean flattener splices for `OR`. -/
def orOperands (e : Expr) : List Expr :=
  match e with
  | .orE es => es
  | e => [e]

/-- Entry point `parse_expr`: convert the CST the grammar produced for a
column expression (a `columnExprWithComment` tree), then substitute
placeholders only when a non-empty binding map was supplied (Python
`if placeholders:` is false for `None` and for an empty dict). -/
def parse_expr (tree : CST) (placeholders : List (String × Expr)) : Except Err Expr := do
  let node ← expectExpr (← visit tree)
  if placeholders.isEmpty then .ok node
  else .ok (replacePlaceholders placeholders node)

/-- Entry point `parse_statement`: convert the CST the grammar produced
for a full select statement (a `selectQuery` tree), then substitute
placeholders as in `parse_expr`. -/
def parse_statement (tree : CST) (placeholders : List (String × Expr)) : Except Err Expr := do
  let node ← expectExpr (← visit tree)
  if placeholders.isEmpty then .ok node
  else .ok (replacePlaceholders placeholders node)

/-- Tokens of the arithmetic fragment of the grammar, for the
spec-modelled front end below. -/
inductive ATok where
  | num (text : String)
  | plusT | dashT | starT | slashT | percentT | eqT | ltT

/-- Modelled from the spec: the ANTLR lexer (an external collaborator,
spec section 4.1) is not among the sampled sources.  Scans one number
literal: a digit run that may contain a decimal point. -/
def lexNum (acc : String) : List Char → String × List Char
  | [] => (acc, [])
  | c :: cs =>
      if c.isDigit ∨ c = '.' then lexNum (acc.push c) cs
      else (acc, c :: cs)

/-- Modelled from the spec: tokenization of the arithmetic fragment
(numbers, `+ - * / % = <`, spaces); fuel bounds the recursion and any
value of at least the character count suffices. -/
def lexArith : Nat → List Char → Option (List ATok)
  | 0, _ => none
  | _ + 1, [] => some []
  | fuel + 1, c :: cs =>
      if c = ' ' then lexArith fuel cs
      else if c = '+' then (lexArith fuel cs).map (ATok.plusT :: ·)
      else if c = '-' then (lexArith fuel cs).map (ATok.dashT :: ·)
      else if c = '*' then (lexArith fuel cs).map (ATok.starT :: ·)
      else if c = '/' then (lexArith fuel cs).map (ATok.slashT :: ·)
      else if c = '%' then (lexArith fuel cs).map (ATok.percentT :: ·)
      else if c = '=' then (lexArith fuel cs).map (ATok.eqT :: ·)
      else if c = '<' then (lexArith fuel cs).map (ATok.ltT :: ·)
      else if c.isDigit then
        match lexNum (String.singleton c) cs with
        | (s, rest) => (lexArith fuel rest).map (ATok.num s :: ·)
      else none

/-- Modelled from the spec, section 4.2: an atom of the arithmetic
fragment is a number literal (`ColumnExprLiteral` over a
`numberLiteral`). -/
def parseAtomA : List ATok → Option (CST × List ATok)
  | .num s :: rest => some (.numberLiteral s, rest)
  | _ => none

/-- Modelled from the spec, section 4.2: the multiplicative tier
(`* / %`, tightest-binding, left-associative), produced as
left-nested `ColumnExprPrecedence1` contexts. -/
def parseMulRest : Nat → CST → List ATok → Option (CST × List ATok)
  | 0, _, _ => none
  | fuel + 1, acc, .starT :: rest =>
      match parseAtomA rest with
      | some (rhs, rest2) => parseMulRest fuel (.columnExprPrecedence1 acc .asterisk rhs) rest2
      | none => none
  | fuel + 1, acc, .slashT :: rest =>
      match parseAtomA rest with
      | some (rhs, rest2) => parseMulRest fuel (.columnExprPrecedence1 acc .slash rhs) rest2
      | none => none
  | fuel + 1, acc, .percentT :: rest =>
      match parseAtomA rest with
      | some (rhs, rest2) => parseMulRest fuel (.columnExprPrecedence1 acc .percent rhs) rest2
      | none => none
  | _ + 1, acc, ts => some (acc, ts)

/-- One multiplicative-tier expression: an atom followed by its tail. -/
def parseMulA (fuel : Nat) (ts : List ATok) : Option (CST × List ATok) :=
  match parseAtomA ts with
  | some (a, rest) => parseMulRest fuel a rest
  | none => none

/-- Modelled from the spec, section 4.2: the additive tier (`+ -`),
binding looser than the multiplicative tier, producing left-nested
`ColumnExprPrecedence2` contexts over multiplicative subtrees. -/
def parseAddRest : Nat → CST → List ATok → Option (CST × List ATok)
  | 0, _, _ => none
  | fuel + 1, acc, .plusT :: rest =>
      match parseMulA fuel rest with
      | some (rhs, rest2) => parseAddRest fuel (.columnExprPrecedence2 acc .plus rhs) rest2
      | none => none
  | fuel + 1, acc, .dashT :: rest =>
      match parseMulA fuel rest with
      | some (rhs, rest2) => parseAddRest fuel (.columnExprPrecedence2 acc .dash rhs) rest2
      | none => none
  | _ + 1, acc, ts => some (acc, ts)

/-- One additive-tier expression. -/
def parseAddA (fuel : Nat) (ts : List ATok) : Option (CST × List ATok) :=
  match parseMulA fuel ts with
  | some (a, rest) => parseAddRest fuel a rest
  | none => none

/-- Modelled from the spec, section 4.2: the comparison tier (`=`, `<`
in this fragment), loosest-binding, producing `ColumnExprPrecedence3`
contexts over additive subtrees. -/
def parseCmpRest : Nat → CST → List ATok → Option (CST × List ATok)
  | 0, _, _ => none
  | fuel + 1, acc, .eqT :: rest =>
      match parseAddA fuel rest with
      | some (rhs, rest2) =>
          parseCmpRest fuel (.columnExprPrecedence3 acc .eqSingle false false rhs) rest2
      | none => none
  | fuel + 1, acc, .ltT :: rest =>
      match parseAddA fuel rest with
      | some (rhs, rest2) =>
          parseCmpRest fuel (.columnExprPrecedence3 acc .ltTok false false rhs) rest2
      | none => none
  | _ + 1, acc, ts => some (acc, ts)

/-- Modelled from the spec: the CST the external grammar produces for an
arithmetic expression, with the three precedence tiers of section 4.2
(multiplicative over additive over comparison). -/
def parseArithCST (s : String) : Option CST :=
  match lexArith (s.length + 1) s.data with
  | some toks =>
      match parseAddA (toks.length + 1) toks with
      | some (e, rest) =>
          match parseCmpRest (toks.length + 1) e rest with
          | some (e2, []) => some e2
          | _ => none
      | none => none
  | none => none

/-- `parse_expression` on the arithmetic fragment: the spec-modelled
front end feeding the converter through the `columnExprWithComment`
entry production, as `parse_expr` does; `none` only when the text is
outside the modelled fragment. -/
def parse_expression_arith (s : String) (ph : List (String × Expr)) : Option (Except Err Expr) :=
  (parseArithCST s).map (fun cst => parse_expr (.columnExprWithComment cst) ph)

/-- Python `isinstance(e, ast.Constant) and isinstance(e.value, int)`:
the acceptance test of the LIMIT/OFFSET resolution. -/
def isIntConstant : Expr → Bool
  | .constant v => v.isInstInt
  | _ => false

/-- Is the error a `NotImplementedError` (the kind every
recognized-but-unimplemented grammar production raises)? -/
def Err.isNotImplemented : Err → Bool
  | .notImplemented _ => true
  | _ => false

/-- The CST of a bare single-segment column identifier `f`. -/
def colIdCST (f : String) : CST :=
  .columnIdentifier none (.nestedIdentifier (.identifier f) [])

/-- The CST of a dotted column identifier `t.f` (a two-segment nested
identifier with no table qualifier). -/
def colIdQCST (t f : String) : CST :=
  .columnIdentifier none (.nestedIdentifier (.identifier t) [.identifier f])

/-- The CST of a bare table reference in a join position. -/
def tblCST (n : String) : CST :=
  .joinExprTable false false (.tableIdentifier none n)

/-- The CST of an `ON <expr>` join constraint (a one-expression list). -/
def onCST (c : CST) : CST :=
  .joinConstraintClause false (.columnExprList [c])

/-- The CST of an equality comparison `l = r`. -/
def eqCST (l r : CST) : CST :=
  .columnExprPrecedence3 l .eqSingle false false r

/-- The CST of a `SELECT <cols> … <from?> … <limit?>` statement with the
given group-by presence flag and no other optional clause. -/
def selectStmtCST (cols : List CST) (fromC : Option CST)
    (limitC : Option (Option (CST × Option CST))) (groupByC : Bool) : CST :=
  .selectQueryC (.selectStmt (some (.columnExprList cols)) fromC none none none limitC
    false false false false groupByC false false false)

/-- The CST the grammar produces (left-associative binary joins,
spec section 4.3) for
`SELECT * FROM a JOIN b ON a.id = b.id JOIN c ON b.id = c.id`. -/
def c1CST : CST :=
  selectStmtCST [.columnsExprAsterisk]
    (some (.fromClause
      (.joinExprOp false false
        (.joinExprOp false false (tblCST "a") (tblCST "b") none
          (onCST (eqCST (colIdQCST "a" "id") (colIdQCST "b" "id"))))
        (tblCST "c") none
        (onCST (eqCST (colIdQCST "b" "id") (colIdQCST "c" "id"))))))
    none false

/-- The converted constraint `a.id = b.id`. -/
def c1CmpAB : Expr :=
  .compareOperation (.fieldAccessChain [.str "a", .str "id"])
    (.fieldAccessChain [.str "b", .str "id"]) .eq

/-- The converted constraint `b.id = c.id`. -/
def c1CmpBC : Expr :=
  .compareOperation (.fieldAccessChain [.str "b", .str "id"])
    (.fieldAccessChain [.str "c", .str "id"]) .eq

/-- The head of the three-node join chain the converter builds for
`c1CST`: `a → b → c`, with join type and constraint on the two
non-tail nodes. -/
def c1Chain : Expr :=
  .joinExpr (.fieldAccess "a") none none (some "JOIN") (some c1CmpAB)
    (some (.joinExpr (.fieldAccess "b") none none (some "JOIN") (some c1CmpBC)
      (some (.joinExpr (.fieldAccess "c") none none none none none))))

/-- The converted statement for `c1CST`. -/
def c1AST : Expr :=
  .selectQuery [.fieldAccess "*"] (some c1Chain) none none none none none

/-- The CST of `SELECT 1 LIMIT 1.5`. -/
def c3FloatCST : CST :=
  selectStmtCST [.numberLiteral "1"] none (some (some (.numberLiteral "1.5", none))) false

/-- The CST of `SELECT 1 LIMIT 5 OFFSET 2`. -/
def c3OffsetCST : CST :=
  selectStmtCST [.numberLiteral "1"] none
    (some (some (.numberLiteral "5", some (.numberLiteral "2")))) false

/-- The CST of `SELECT 1 GROUP BY 1` (the group-by clause is present;
its contents are never visited because the presence check fails
first). -/
def c7CST : CST :=
  selectStmtCST [.numberLiteral "1"] none none true

/-- The CST of `SELECT 1 LIMIT true`. -/
def c10CST : CST :=
  selectStmtCST [.numberLiteral "1"] none (some (some (colIdCST "true", none))) false

/-- The CST the grammar produces for the template-string expression
holding the placeholder named `foo`. -/
def c9PlaceholderCST : CST :=
  .columnExprWithComment
    (.columnIdentifier none (.nestedIdentifier (.identifierTS (.templateString "foo")) []))

/-- The CST of the expression `a[1]` (array access with an integer
constant key on a single-segment field base). -/
def c6ArrayCST : CST :=
  .columnExprWithComment (.columnExprArrayAccess (colIdCST "a") (.numberLiteral "1"))

/-- Successful bind in the `Except Err` monad decomposes into a
successful first step and a successful continuation. -/
theorem exceptBind_ok {α β : Type} (x : Except Err α) (f : α → Except Err β) (b : β) :
    (x >>= f) = .ok b ↔ ∃ a, x = .ok a ∧ f a = .ok b := by
  cases x <;> simp [Bind.bind, Except.bind]

/-- `pure` in the `Except Err` monad is `ok`. -/
theorem exceptPure_ok {α : Type} (a b : α) :
    (pure a : Except Err α) = .ok b ↔ a = b := by
  simp [pure, Except.pure]

/-- `expectExpr` succeeds exactly on expression results. -/
theorem expectExpr_ok (r : VisitResult) (e : Expr) :
    expectExpr r = .ok e ↔ r = .expr e := by
  cases r <;> simp [expectExpr]

/-- `expectList` succeeds exactly on list results. -/
theorem expectList_ok (r : VisitResult) (es : List Expr) :
    expectList r = .ok es ↔ r = .exprList es := by
  cases r <;> simp [expectList]

/-- `expectStr` succeeds exactly on string results. -/
theorem expectStr_ok (r : VisitResult) (s : String) :
    expectStr r = .ok s ↔ r = .str s := by
  cases r <;> simp [expectStr]

/-- Unfolding `visit` on a `selectQuery` context. -/
theorem visit_selectQueryC (inner : CST) :
    visit (.selectQueryC inner) = visit inner := rfl

/-- Unfolding `visit` on a `selectUnionStmt` context. -/
theorem visit_selectUnionStmt (selects : List CST) :
    visit (.selectUnionStmt selects) =
      (match selects with
        | [s] => visit s
        | _ => .error (.notImplemented "Unsupported: UNION ALL")) := by
  rcases selects with _ | ⟨s, _ | ⟨s2, rest⟩⟩ <;> rfl

/-- Unfolding `visit` on a parenthesized select statement. -/
theorem visit_selectStmtWithParens (inner : CST) :
    visit (.selectStmtWithParens inner) = visit inner := rfl

/-- Unfolding `visit` on a `selectStmt` context. -/
theorem visit_selectStmt (columns fromC whereC prewhereC havingC : Option CST)
    (limitC : Option (Option (CST × Option CST)))
    (withC topC arrayJoinC windowC groupByC orderByC limitByC settingsC : Bool) :
    visit (.selectStmt columns fromC whereC prewhereC havingC limitC
        withC topC arrayJoinC windowC groupByC orderByC limitByC settingsC) =
      (do
        let select ← visitOptList columns
        let selectFrom ← visitOpt fromC
        let whereE ← visitOpt whereC
        let prewhere ← visitOpt prewhereC
        let having ← visitOpt havingC
        let limitOffset ← visitLimitClause limitC
        if withC then .error (.notImplemented "Unsupported: SelectStmt.withClause()")
        else if topC then .error (.notImplemented "Unsupported: SelectStmt.topClause()")
        else if arrayJoinC then .error (.notImplemented "Unsupported: SelectStmt.arrayJoinClause()")
        else if windowC then .error (.notImplemented "Unsupported: SelectStmt.windowClause()")
        else if groupByC then .error (.notImplemented "Unsupported: SelectStmt.groupByClause()")
        else if orderByC then .error (.notImplemented "Unsupported: SelectStmt.orderByClause()")
        else if limitByC then .error (.notImplemented "Unsupported: SelectStmt.limitByClause()")
        else if settingsC then .error (.notImplemented "Unsupported: SelectStmt.settingsClause()")
        else .ok (.expr (.selectQuery select selectFrom whereE prewhere having
          limitOffset.1 limitOffset.2))) := rfl

/-- Unfolding `visit` on a `fromClause`. -/
theorem visit_fromClause (join : CST) : visit (.fromClause join) = visit join := rfl

/-- Unfolding `visit` on a `whereClause`. -/
theorem visit_whereClause (e : CST) : visit (.whereClause e) = visit e := rfl

/-- Unfolding `visit` on a `prewhereClause`. -/
theorem visit_prewhereClause (e : CST) : visit (.prewhereClause e) = visit e := rfl

/-- Unfolding `visit` on a `havingClause`. -/
theorem visit_havingClause (e : CST) : visit (.havingClause e) = visit e := rfl

/-- Unfolding `visit` on a binary join production. -/
theorem visit_joinExprOp (globalTok localTok : Bool) (join1C join2C : CST)
    (opC : Option CST) (constraintC : CST) :
    visit (.joinExprOp globalTok localTok join1C join2C opC constraintC) =
      (do
        if globalTok then .error (.notImplemented "Unsupported: GLOBAL JOIN")
        else if localTok then .error (.notImplemented "Unsupported: LOCAL JOIN")
        else do
          let join1 ← expectExpr (← visit join1C)
          let join2 ← expectExpr (← visit join2C)
          let joinType ← visitJoinType opC
          let joinConstraint ← expectExpr (← visit constraintC)
          let joined ← attachJoin join1 join2 joinType joinConstraint
          .ok (.expr joined)) := rfl

/-- Unfolding `visit` on a table join production. -/
theorem visit_joinExprTable (sample finalTok : Bool) (tableC : CST) :
    visit (.joinExprTable sample finalTok tableC) =
      (do
        if sample then .error (.notImplemented "Unsupported: SAMPLE (JoinExprTable.sampleClause)")
        else do
          let table ← expectExpr (← visit tableC)
          let tableFinal : Option Bool := if finalTok then some true else none
          match table with
          | .joinExpr t _ al jt jc jn =>
              .ok (.expr (.joinExpr t tableFinal al jt jc jn))
          | other => .ok (.expr (.joinExpr other tableFinal none none none none))) := rfl

/-- Unfolding `visit` on a parenthesized join expression. -/
theorem visit_joinExprParens (join : CST) : visit (.joinExprParens join) = visit join := rfl

/-- Unfolding `visit` on a join constraint clause. -/
theorem visit_joinConstraintClause (usingTok : Bool) (exprsC : CST) :
    visit (.joinConstraintClause usingTok exprsC) =
      (do
        if usingTok then .error (.notImplemented "Unsupported: JOIN ... USING")
        else do
          let columnExprList ← expectList (← visit exprsC)
          match columnExprList with
          | [e] => .ok (.expr e)
          | _ => .error (.notImplemented "Unsupported: JOIN ... ON with multiple expressions")) := rfl

/-- Unfolding `visit` on a column expression list. -/
theorem visit_columnExprList (cols : List CST) :
    visit (.columnExprList cols) =
      (do Except.ok (.exprList (← visitList cols))) := rfl

/-- Unfolding `visit` on the comment-wrapping entry production. -/
theorem visit_columnExprWithComment (e : CST) :
    visit (.columnExprWithComment e) = visit e := rfl

/-- Unfolding `visit` on a binary `AND` production. -/
theorem visit_columnExprAnd (l r : CST) :
    visit (.columnExprAnd l r) =
      (do
        let left ← expectExpr (← visit l)
        let leftArray := andOperands left
        let right ← expectExpr (← visit r)
        let rightArray := andOperands right
        Except.ok (.expr (.andE (leftArray ++ rightArray)))) := rfl

/-- Unfolding `visit` on a binary `OR` production. -/
theorem visit_columnExprOr (l r : CST) :
    visit (.columnExprOr l r) =
      (do
        let left ← expectExpr (← visit l)
        let leftArray := orOperands left
        let right ← expectExpr (← visit r)
        let rightArray := orOperands right
        Except.ok (.expr (.orE (leftArray ++ rightArray)))) := rfl

/-- Unfolding `visit` on a `NOT` production. -/
theorem visit_columnExprNot (e : CST) :
    visit (.columnExprNot e) =
      (do Except.ok (.expr (.notE (← expectExpr (← visit e))))) := rfl

/-- Unfolding `visit` on a parenthesized column expression. -/
theorem visit_columnExprParens (e : CST) :
    visit (.columnExprParens e) = visit e := rfl

/-- Unfolding `visit` on an `IS (NOT) NULL` production. -/
theorem visit_columnExprIsNull (e : CST) (notTok : Bool) :
    visit (.columnExprIsNull e notTok) =
      (do
        let inner ← expectExpr (← visit e)
        Except.ok (.expr (.compareOperation inner (.constant .null)
          (if notTok then .notEq else .eq)))) := rfl

/-- Unfolding `visit` on an array access production. -/
theorem visit_columnExprArrayAccess (objC keyC : CST) :
    visit (.columnExprArrayAccess objC keyC) =
      (do
        let object ← expectExpr (← visit objC)
        let property ← expectExpr (← visit keyC)
        match property with
        | .constant v =>
            match object with
            | .fieldAccess f => Except.ok (.expr (.fieldAccessChain [.str f, v]))
            | .fieldAccessChain ch => Except.ok (.expr (.fieldAccessChain (ch ++ [v])))
            | _ => .error (.notImplemented
                ("Unsupported combination for ColumnExprArrayAccess: " ++
                  object.className ++ "[" ++ (Expr.constant v).className ++ "]"))
        | _ => .error (.notImplemented "Array access must be performed with a constant.")) := rfl

/-- Unfolding `visit` on a multiplicative-tier production. -/
theorem visit_columnExprPrecedence1 (l : CST) (op : P1Op) (r : CST) :
    visit (.columnExprPrecedence1 l op r) =
      (do
        let binOp ← p1OpResolve op
        let left ← expectExpr (← visit l)
        let right ← expectExpr (← visit r)
        Except.ok (.expr (.binaryOperation left right binOp))) := rfl

/-- Unfolding `visit` on an additive-tier production. -/
theorem visit_columnExprPrecedence2 (l : CST) (op : P2Op) (r : CST) :
    visit (.columnExprPrecedence2 l op r) =
      (do
        let binOp ← p2OpResolve op
        let left ← expectExpr (← visit l)
        let right ← expectExpr (← visit r)
        Except.ok (.expr (.binaryOperation left right binOp))) := rfl

/-- Unfolding `visit` on a comparison-tier production. -/
theorem visit_columnExprPrecedence3 (l : CST) (op : P3Op) (notTok globalTok : Bool) (r : CST) :
    visit (.columnExprPrecedence3 l op notTok globalTok r) =
      (do
        let cmpOp ← p3OpResolve op notTok globalTok
        let left ← expectExpr (← visit l)
        let right ← expectExpr (← visit r)
        Except.ok (.expr (.compareOperation left right cmpOp))) := rfl

/-- Unfolding `visit` on a function call production. -/
theorem visit_columnExprFunction (name : String) (hasExprList : Bool) (argList : Option CST) :
    visit (.columnExprFunction name hasExprList argList) =
      (do
        if hasExprList then .error (.notImplemented "Functions that return functions are not supported")
        else do
          let args ← visitOptList argList
          Except.ok (.expr (.call name args))) := rfl

/-- Unfolding `visit` on an argument list. -/
theorem visit_columnArgList (args : List CST) :
    visit (.columnArgList args) =
      (do Except.ok (.exprList (← visitList args))) := rfl

/-- Unfolding `visit` on a column-expression subquery. -/
theorem visit_columnExprSubquery (sel : CST) :
    visit (.columnExprSubquery sel) = visit sel := rfl

/-- Unfolding `visit` on a columns-expression subquery. -/
theorem visit_columnsExprSubquery (sel : CST) :
    visit (.columnsExprSubquery sel) = visit sel := rfl

/-- Unfolding `visit` on a table-expression subquery. -/
theorem visit_tableExprSubquery (sel : CST) :
    visit (.tableExprSubquery sel) = visit sel := rfl

/-- Unfolding `visit` on a column identifier. -/
theorem visit_columnIdentifier (tableC : Option CST) (nestedC : CST) :
    visit (.columnIdentifier tableC nestedC) =
      (do
        let table ← visitOpt tableC
        let nested ← expectExpr (← visit nestedC)
        match table with
        | none =>
            match nested with
            | .fieldAccess f =>
                let text := pyLower (CST.text (.columnIdentifier tableC nestedC))
                if text = "true" then Except.ok (.expr (.constant (.bool true)))
                else if text = "false" then Except.ok (.expr (.constant (.bool false)))
                else Except.ok (.expr (.fieldAccess f))
            | e => Except.ok (.expr e)
        | some tbl => do
            let chain1 : List Value ← match tbl with
              | .fieldAccess f => pure [.str f]
              | .fieldAccessChain ch => pure ch
              | _ => .error (.notImplemented
                  ("Unsupported property access: " ++ CST.text (.columnIdentifier tableC nestedC)))
            let chain2 : List Value ← match nested with
              | .fieldAccess f => pure [.str f]
              | .fieldAccessChain ch => pure ch
              | _ => .error (.notImplemented
                  ("Unsupported property access: " ++ CST.text (.columnIdentifier tableC nestedC)))
            Except.ok (.expr (.fieldAccessChain (chain1 ++ chain2)))) := rfl

/-- Unfolding `visit` on a nested identifier. -/
theorem visit_nestedIdentifier (first : CST) (rest : List CST) :
    visit (.nestedIdentifier first rest) =
      (do
        let id0 ← expectExpr (← visit first)
        let idRest ← visitList rest
        match idRest with
        | [] => Except.ok (.expr id0)
        | _ => do
            let fields ← fieldsOf (id0 :: idRest)
            Except.ok (.expr (.fieldAccessChain fields))) := rfl

/-- Unfolding `visit` on a plain identifier. -/
theorem visit_identifier (text : String) :
    visit (.identifier text) = .ok (.expr (.fieldAccess text)) := rfl

/-- Unfolding `visit` on an identifier holding a template string. -/
theorem visit_identifierTS (ts : CST) :
    visit (.identifierTS ts) = visit ts := rfl

/-- Unfolding `visit` on a template string. -/
theorem visit_templateString (content : String) :
    visit (.templateString content) = .ok (.expr (.placeholder content)) := rfl

/-- Unfolding `visit` on the NULL literal. -/
theorem visit_nullLiteral :
    visit (.nullLiteral) = .ok (.expr (.constant .null)) := rfl

/-- Unfolding `visit` on a string literal. -/
theorem visit_stringLiteral (content : String) :
    visit (.stringLiteral content) = .ok (.expr (.constant (.str content))) := rfl

/-- Unfolding `visit` on the asterisk projections. -/
theorem visit_columnsExprAsterisk :
    visit (.columnsExprAsterisk) = .ok (.expr (.fieldAccess "*")) := rfl

/-- Unfolding `visit` on a bare asterisk column expression. -/
theorem visit_columnExprAsterisk :
    visit (.columnExprAsterisk) = .ok (.expr (.fieldAccess "*")) := rfl

/-- Unfolding `visit` on any production whose method unconditionally
raises `NotImplementedError("Unsupported node: …")`. -/
theorem visit_unsupportedNode (name : String) :
    visit (.unsupportedNode name) = .error (.notImplemented ("Unsupported node: " ++ name)) := rfl

/-- Unfolding `visit` on a number literal. -/
theorem visit_numberLiteral (text : String) :
    visit (.numberLiteral text) =
      (if containsDot text then .ok (.expr (.constant (.float text)))
       else .ok (.expr (.constant (.int (pyInt text))))) := rfl

/-- Unfolding `visit` on a table identifier. -/
theorem visit_tableIdentifier (db : Option String) (name : String) :
    visit (.tableIdentifier db name) =
      (match db with
        | some d => .ok (.expr (.fieldAccessChain [.str d, .str name]))
        | none => .ok (.expr (.fieldAccess name))) := by
  cases db <;> rfl

/-- Unfolding `visit` on an aliased table expression. -/
theorem visit_tableExprAlias (tableC : CST) (aliasText : String) :
    visit (.tableExprAlias tableC aliasText) =
      (do
        let table ← expectExpr (← visit tableC)
        Except.ok (.expr (.joinExpr table none (some aliasText) none none none))) := rfl

/-- Unfolding `visit` on the inner-join operator tokens (the code
appends `"INNER"` when `ctx.LEFT()` is set). -/
theorem visit_joinOpInner (leftTok allTok antiTok anyTok asofTok : Bool) :
    visit (.joinOpInner leftTok allTok antiTok anyTok asofTok) =
      .ok (.str (joinTokens
        ((if leftTok then ["INNER"] else []) ++
         (if allTok then ["ALL"] else []) ++
         (if antiTok then ["ANTI"] else []) ++
         (if anyTok then ["ANY"] else []) ++
         (if asofTok then ["ASOF"] else [])))) := rfl

/-- Unfolding `visit` on the left/right-join operator tokens. -/
theorem visit_joinOpLeftRight
    (leftTok rightTok outerTok semiTok allTok antiTok anyTok asofTok : Bool) :
    visit (.joinOpLeftRight leftTok rightTok outerTok semiTok allTok antiTok anyTok asofTok) =
      .ok (.str (joinTokens
        ((if leftTok then ["LEFT"] else []) ++
         (if rightTok then ["RIGHT"] else []) ++
         (if outerTok then ["OUTER"] else []) ++
         (if semiTok then ["SEMI"] else []) ++
         (if allTok then ["ALL"] else []) ++
         (if antiTok then ["ANTI"] else []) ++
         (if anyTok then ["ANY"] else []) ++
         (if asofTok then ["ASOF"] else [])))) := rfl

/-- Unfolding `visit` on the full-join operator tokens (the code appends
`"FULL"` when `ctx.LEFT()` is set). -/
theorem visit_joinOpFull (leftTok outerTok allTok anyTok : Bool) :
    visit (.joinOpFull leftTok outerTok allTok anyTok) =
      .ok (.str (joinTokens
        ((if leftTok then ["FULL"] else []) ++
         (if outerTok then ["OUTER"] else []) ++
         (if allTok then ["ALL"] else []) ++
         (if anyTok then ["ANY"] else [])))) := rfl

/-- Unfolding `visitList` on the empty list. -/
theorem visitList_nil : visitList [] = .ok [] := rfl

/-- Unfolding `visitList` on a cons. -/
theorem visitList_cons (c : CST) (cs : List CST) :
    visitList (c :: cs) =
      (do
        let e ← expectExpr (← visit c)
        let es ← visitList cs
        Except.ok (e :: es)) := rfl

/-- Unfolding `visitOpt` on a missing child. -/
theorem visitOpt_none : visitOpt none = .ok none := rfl

/-- Unfolding `visitOpt` on a present child. -/
theorem visitOpt_some (c : CST) :
    visitOpt (some c) = (do pure (some (← expectExpr (← visit c)))) := rfl

/-- Unfolding `visitOptList` on a missing child. -/
theorem visitOptList_none : visitOptList none = .ok [] := rfl

/-- Unfolding `visitOptList` on a present child. -/
theorem visitOptList_some (c : CST) :
    visitOptList (some c) = (do expectList (← visit c)) := rfl

/-- Unfolding `visitJoinType` without a join operator. -/
theorem visitJoinType_none : visitJoinType none = .ok "JOIN" := rfl

/-- Unfolding `visitJoinType` with a join operator. -/
theorem visitJoinType_some (o : CST) :
    visitJoinType (some o) = (do pure ((← expectStr (← visit o)) ++ " JOIN")) := rfl

/-- Unfolding `visitLimitClause` on the shape carrying both a limit and
an optional offset expression. -/
theorem visitLimitClause_some (e1 : CST) (e2 : Option CST) :
    visitLimitClause (some (some (e1, e2))) =
      (do
        let limitNode ← expectExpr (← visit e1)
        let limit ← match limitNode with
          | .constant v =>
              if v.isInstInt then pure (some v)
              else .error (.exception "LIMIT must be an integer")
          | _ => .error (.exception "LIMIT must be an integer")
        let offset ← match e2 with
          | some e2' => do
              let offsetNode ← expectExpr (← visit e2')
              match offsetNode with
              | .constant v =>
                  if v.isInstInt then pure (some v)
                  else .error (.exception "OFFSET must be an integer")
              | _ => .error (.exception "OFFSET must be an integer")
          | none => pure none
        pure (limit, offset)) := by
  cases e2 <;> rfl

/-- Without a limit expression no limit or offset is recorded. -/
theorem visitLimitClause_none :
    visitLimitClause none = .ok (none, none) ∧
    visitLimitClause (some none) = .ok (none, none) := ⟨rfl, rfl⟩


theorem flatL_append (a b : List Expr) : flatL (a ++ b) = (flatL a && flatL b) := by
  induction a with
  | nil => simp [flatL]
  | cons e es ih => simp [flatL, ih, Bool.and_assoc]

theorem chainOkL_append (a b : List Expr) : chainOkL (a ++ b) = (chainOkL a && chainOkL b) := by
  induction a with
  | nil => simp [chainOkL]
  | cons e es ih => simp [chainOkL, ih, Bool.and_assoc]

theorem fieldsOf_length : ∀ (es : List Expr) (vs : List Value),
    fieldsOf es = .ok vs → vs.length = es.length := by
  intro es
  induction es with
  | nil =>
      intro vs h
      simp only [fieldsOf] at h
      have hv : vs = [] := by simpa using h.symm
      subst hv
      rfl
  | cons e es ih =>
      intro vs h
      simp only [fieldsOf, bind, Except.bind] at h
      split at h
      · split at h
        · exact absurd h (by simp)
        · next fs hfs =>
            rw [show vs = .str _ :: fs by simpa using h.symm]
            simp [ih _ hfs]
      · exact absurd h (by simp)

theorem attachJoin_flat : ∀ (j1 j2 : Expr) (ty : String) (c : Expr),
    ∀ j, attachJoin j1 j2 ty c = .ok j →
    flatE j1 = true → flatE j2 = true → flatE c = true → flatE j = true := by
  intro j1 j2 ty c
  induction j1, j2, ty, c using attachJoin.induct with
  | case1 j2 ty c t tf al jt jc next ih =>
      intro j h h1 h2 h3
      simp only [attachJoin, bind, Except.bind] at h
      split at h
      · exact absurd h (by simp)
      · next next' hnext =>
          rw [show j = .joinExpr t tf al jt jc (some next') by simpa using h.symm]
          simp only [flatE, flatO, Bool.and_eq_true] at h1 ⊢
          exact ⟨h1.1, ih _ hnext h1.2 h2 h3⟩
  | case2 j2 ty c t tf al jt jc =>
      intro j h h1 h2 h3
      simp only [attachJoin] at h
      rw [show j = .joinExpr t tf al (some ty) (some c) (some j2) by simpa using h.symm]
      simp only [flatE, flatO, Bool.and_eq_true] at h1 ⊢
      exact ⟨⟨h1.1.1, h3⟩, h2⟩
  | case3 t j2 ty c hn1 hn2 =>
      intro j h h1 h2 h3
      cases t with
      | joinExpr tbl tf al jt jc jn =>
          cases jn with
          | none => exact absurd rfl (hn2 tbl tf al jt jc)
          | some nx => exact absurd rfl (hn1 tbl tf al jt jc nx)
      | constant v => exact absurd h (by simp [attachJoin])
      | fieldAccess f => exact absurd h (by simp [attachJoin])
      | fieldAccessChain ch => exact absurd h (by simp [attachJoin])
      | placeholder f => exact absurd h (by simp [attachJoin])
      | binaryOperation a b op => exact absurd h (by simp [attachJoin])
      | compareOperation a b op => exact absurd h (by simp [attachJoin])
      | andE es => exact absurd h (by simp [attachJoin])
      | orE es => exact absurd h (by simp [attachJoin])
      | notE e => exact absurd h (by simp [attachJoin])
      | call n args => exact absurd h (by simp [attachJoin])
      | selectQuery a b cc d e f g => exact absurd h (by simp [attachJoin])

theorem attachJoin_chain : ∀ (j1 j2 : Expr) (ty : String) (c : Expr),
    ∀ j, attachJoin j1 j2 ty c = .ok j →
    chainOkE j1 = true → chainOkE j2 = true → chainOkE c = true → chainOkE j = true := by
  intro j1 j2 ty c
  induction j1, j2, ty, c using attachJoin.induct with
  | case1 j2 ty c t tf al jt jc next ih =>
      intro j h h1 h2 h3
      simp only [attachJoin, bind, Except.bind] at h
      split at h
      · exact absurd h (by simp)
      · next next' hnext =>
          rw [show j = .joinExpr t tf al jt jc (some next') by simpa using h.symm]
          simp only [chainOkE, chainOkO, Bool.and_eq_true] at h1 ⊢
          exact ⟨h1.1, ih _ hnext h1.2 h2 h3⟩
  | case2 j2 ty c t tf al jt jc =>
      intro j h h1 h2 h3
      simp only [attachJoin] at h
      rw [show j = .joinExpr t tf al (some ty) (some c) (some j2) by simpa using h.symm]
      simp only [chainOkE, chainOkO, Bool.and_eq_true] at h1 ⊢
      exact ⟨⟨h1.1.1, h3⟩, h2⟩
  | case3 t j2 ty c hn1 hn2 =>
      intro j h h1 h2 h3
      cases t with
      | joinExpr tbl tf al jt jc jn =>
          cases jn with
          | none => exact absurd rfl (hn2 tbl tf al jt jc)
          | some nx => exact absurd rfl (hn1 tbl tf al jt jc nx)
      | constant v => exact absurd h (by simp [attachJoin])
      | fieldAccess f => exact absurd h (by simp [attachJoin])
      | fieldAccessChain ch => exact absurd h (by simp [attachJoin])
      | placeholder f => exact absurd h (by simp [attachJoin])
      | binaryOperation a b op => exact absurd h (by simp [attachJoin])
      | compareOperation a b op => exact absurd h (by simp [attachJoin])
      | andE es => exact absurd h (by simp [attachJoin])
      | orE es => exact absurd h (by simp [attachJoin])
      | notE e => exact absurd h (by simp [attachJoin])
      | call n args => exact absurd h (by simp [attachJoin])
      | selectQuery a b cc d e f g => exact absurd h (by simp [attachJoin])

theorem andOperands_ok (e : Expr) (h : okE e) :
    (andOperands e).all (fun x => !x.isAnd) = true ∧
    flatL (andOperands e) = true ∧ chainOkL (andOperands e) = true := by
  obtain ⟨h1, h2⟩ := h
  cases e <;>
    simp_all [andOperands, flatE, chainOkE, flatL, chainOkL, Expr.isAnd]

theorem orOperands_ok (e : Expr) (h : okE e) :
    (orOperands e).all (fun x => !x.isOr) = true ∧
    flatL (orOperands e) = true ∧ chainOkL (orOperands e) = true := by
  obtain ⟨h1, h2⟩ := h
  cases e <;>
    simp_all [orOperands, flatE, chainOkE, flatL, chainOkL, Expr.isOr]

theorem inv_and (l r : CST)
    (ihl : ∀ r', visit l = .ok r' → okR r')
    (ihr : ∀ r', visit r = .ok r' → okR r') :
    ∀ res, visit (.columnExprAnd l r) = .ok res → okR res := by
  intro res h
  rw [visit_columnExprAnd] at h
  simp only [exceptBind_ok, expectExpr_ok] at h
  obtain ⟨r1, hv1, e1, rfl, r2, hv2, e2, rfl, h⟩ := h
  have o1 := ihl _ hv1
  have o2 := ihr _ hv2
  have hq : VisitResult.expr (.andE (andOperands e1 ++ andOperands e2)) = res := by
    simpa using h
  subst hq
  obtain ⟨a1, a2, a3⟩ := andOperands_ok e1 o1
  obtain ⟨b1, b2, b3⟩ := andOperands_ok e2 o2
  refine ⟨?_, ?_⟩
  · simp only [flatE, Bool.and_eq_true, flatL_append, List.all_append]
    exact ⟨⟨a1, b1⟩, a2, b2⟩
  · simp only [chainOkE, chainOkL_append, Bool.and_eq_true]
    exact ⟨a3, b3⟩

theorem inv_or (l r : CST)
    (ihl : ∀ r', visit l = .ok r' → okR r')
    (ihr : ∀ r', visit r = .ok r' → okR r') :
    ∀ res, visit (.columnExprOr l r) = .ok res → okR res := by
  intro res h
  rw [visit_columnExprOr] at h
  simp only [exceptBind_ok, expectExpr_ok] at h
  obtain ⟨r1, hv1, e1, rfl, r2, hv2, e2, rfl, h⟩ := h
  have o1 := ihl _ hv1
  have o2 := ihr _ hv2
  have hq : VisitResult.expr (.orE (orOperands e1 ++ orOperands e2)) = res := by
    simpa using h
  subst hq
  obtain ⟨a1, a2, a3⟩ := orOperands_ok e1 o1
  obtain ⟨b1, b2, b3⟩ := orOperands_ok e2 o2
  refine ⟨?_, ?_⟩
  · simp only [flatE, Bool.and_eq_true, flatL_append, List.all_append]
    exact ⟨⟨a1, b1⟩, a2, b2⟩
  · simp only [chainOkE, chainOkL_append, Bool.and_eq_true]
    exact ⟨a3, b3⟩

theorem inv_selectStmt (columns fromC whereC prewhereC havingC : Option CST)
    (limitC : Option (Option (CST × Option CST)))
    (withC topC arrayJoinC windowC groupByC orderByC limitByC settingsC : Bool)
    (ihcols : ∀ es, visitOptList columns = .ok es → okL es)
    (ihf : ∀ o, visitOpt fromC = .ok o → okO o)
    (ihw : ∀ o, visitOpt whereC = .ok o → okO o)
    (ihp : ∀ o, visitOpt prewhereC = .ok o → okO o)
    (ihh : ∀ o, visitOpt havingC = .ok o → okO o) :
    ∀ res, visit (.selectStmt columns fromC whereC prewhereC havingC limitC
        withC topC arrayJoinC windowC groupByC orderByC limitByC settingsC) = .ok res →
      okR res := by
  intro res h
  rw [visit_selectStmt] at h
  simp only [exceptBind_ok] at h
  obtain ⟨select, hsel, sf, hsf, w, hw, p, hp, hvg, hh, lo, hlo, h⟩ := h
  have osel := ihcols _ hsel
  have osf := ihf _ hsf
  have ow := ihw _ hw
  have op := ihp _ hp
  have oh := ihh _ hh
  clear hlo
  iterate 8 (all_goals try split at h)
  all_goals simp at h
  subst h
  refine ⟨?_, ?_⟩
  · simp only [flatE, Bool.and_eq_true]
    exact ⟨⟨⟨⟨osel.1, osf.1⟩, ow.1⟩, op.1⟩, oh.1⟩
  · simp only [chainOkE, Bool.and_eq_true]
    exact ⟨⟨⟨⟨osel.2, osf.2⟩, ow.2⟩, op.2⟩, oh.2⟩

theorem inv_joinExprOp (globalTok localTok : Bool) (join1C join2C : CST)
    (opC : Option CST) (constraintC : CST)
    (ih1 : ∀ r', visit join1C = .ok r' → okR r')
    (ih2 : ∀ r', visit join2C = .ok r' → okR r')
    (ihc : ∀ r', visit constraintC = .ok r' → okR r') :
    ∀ res, visit (.joinExprOp globalTok localTok join1C join2C opC constraintC) = .ok res →
      okR res := by
  intro res h
  rw [visit_joinExprOp] at h
  cases globalTok with
  | true => exact absurd h (by simp)
  | false =>
  cases localTok with
  | true => exact absurd h (by simp)
  | false =>
  simp only [Bool.false_eq_true, if_false, exceptBind_ok, expectExpr_ok] at h
  obtain ⟨r1, hv1, j1, rfl, r2, hv2, j2, rfl, jt, hjt, r3, hv3, jc, rfl, joined, hatt, h⟩ := h
  have o1 := ih1 _ hv1
  have o2 := ih2 _ hv2
  have oc := ihc _ hv3
  have hq : VisitResult.expr joined = res := by simpa using h
  subst hq
  exact ⟨attachJoin_flat _ _ _ _ _ hatt o1.1 o2.1 oc.1,
    attachJoin_chain _ _ _ _ _ hatt o1.2 o2.2 oc.2⟩

theorem inv_joinExprTable (sample finalTok : Bool) (tableC : CST)
    (iht : ∀ r', visit tableC = .ok r' → okR r') :
    ∀ res, visit (.joinExprTable sample finalTok tableC) = .ok res → okR res := by
  intro res h
  rw [visit_joinExprTable] at h
  cases sample with
  | true => exact absurd h (by simp)
  | false =>
  simp only [Bool.false_eq_true, if_false, exceptBind_ok, expectExpr_ok] at h
  obtain ⟨r1, hv1, table, rfl, h⟩ := h
  obtain ⟨of, oc⟩ := iht _ hv1
  cases table <;> simp only [Except.ok.injEq] at h <;> subst h <;>
    exact ⟨by simp_all [flatE, flatO, Bool.and_eq_true],
      by simp_all [chainOkE, chainOkO, Bool.and_eq_true]⟩

theorem inv_joinConstraintClause (usingTok : Bool) (exprsC : CST)
    (ihe : ∀ r', visit exprsC = .ok r' → okR r') :
    ∀ res, visit (.joinConstraintClause usingTok exprsC) = .ok res → okR res := by
  intro res h
  rw [visit_joinConstraintClause] at h
  cases usingTok with
  | true => exact absurd h (by simp)
  | false =>
  simp only [Bool.false_eq_true, if_false, exceptBind_ok, expectList_ok] at h
  obtain ⟨r1, hv1, es, rfl, h⟩ := h
  have oes := ihe _ hv1
  rcases es with _ | ⟨e, _ | ⟨e2, tl⟩⟩
  · exact absurd h (by simp)
  · have hq : VisitResult.expr e = res := by simpa using h
    subst hq
    obtain ⟨h1, h2⟩ := oes
    simp only [flatL, chainOkL, Bool.and_eq_true] at h1 h2
    exact ⟨h1.1, h2.1⟩
  · exact absurd h (by simp)

theorem inv_arrayAccess (objC keyC : CST)
    (iho : ∀ r', visit objC = .ok r' → okR r') :
    ∀ res, visit (.columnExprArrayAccess objC keyC) = .ok res → okR res := by
  intro res h
  rw [visit_columnExprArrayAccess] at h
  simp only [exceptBind_ok, expectExpr_ok] at h
  obtain ⟨r1, hv1, object, rfl, r2, hv2, property, rfl, h⟩ := h
  have oo := iho _ hv1
  cases property
  case constant v =>
    cases object
    case fieldAccess f =>
      have hq : VisitResult.expr (.fieldAccessChain [.str f, v]) = res := by simpa using h
      subst hq
      exact ⟨rfl, rfl⟩
    case fieldAccessChain ch =>
      have hq : VisitResult.expr (.fieldAccessChain (ch ++ [v])) = res := by simpa using h
      subst hq
      refine ⟨rfl, ?_⟩
      obtain ⟨h1, h2⟩ := oo
      simp only [chainOkE, decide_eq_true_eq, List.length_append] at h2 ⊢
      omega
    all_goals simp at h
  all_goals simp at h

theorem inv_precedence1 (l : CST) (op : P1Op) (r : CST)
    (ihl : ∀ r', visit l = .ok r' → okR r')
    (ihr : ∀ r', visit r = .ok r' → okR r') :
    ∀ res, visit (.columnExprPrecedence1 l op r) = .ok res → okR res := by
  intro res h
  rw [visit_columnExprPrecedence1] at h
  simp only [exceptBind_ok, expectExpr_ok] at h
  obtain ⟨bo, hbo, r1, hv1, e1, rfl, r2, hv2, e2, rfl, h⟩ := h
  have o1 := ihl _ hv1
  have o2 := ihr _ hv2
  have hq : VisitResult.expr (.binaryOperation e1 e2 bo) = res := by simpa using h
  subst hq
  exact ⟨by simp [flatE, o1.1, o2.1], by simp [chainOkE, o1.2, o2.2]⟩

theorem inv_precedence2 (l : CST) (op : P2Op) (r : CST)
    (ihl : ∀ r', visit l = .ok r' → okR r')
    (ihr : ∀ r', visit r = .ok r' → okR r') :
    ∀ res, visit (.columnExprPrecedence2 l op r) = .ok res → okR res := by
  intro res h
  rw [visit_columnExprPrecedence2] at h
  simp only [exceptBind_ok, expectExpr_ok] at h
  obtain ⟨bo, hbo, r1, hv1, e1, rfl, r2, hv2, e2, rfl, h⟩ := h
  have o1 := ihl _ hv1
  have o2 := ihr _ hv2
  have hq : VisitResult.expr (.binaryOperation e1 e2 bo) = res := by simpa using h
  subst hq
  exact ⟨by simp [flatE, o1.1, o2.1], by simp [chainOkE, o1.2, o2.2]⟩

theorem inv_precedence3 (l : CST) (op : P3Op) (notTok globalTok : Bool) (r : CST)
    (ihl : ∀ r', visit l = .ok r' → okR r')
    (ihr : ∀ r', visit r = .ok r' → okR r') :
    ∀ res, visit (.columnExprPrecedence3 l op notTok globalTok r) = .ok res → okR res := by
  intro res h
  rw [visit_columnExprPrecedence3] at h
  simp only [exceptBind_ok, expectExpr_ok] at h
  obtain ⟨co, hco, r1, hv1, e1, rfl, r2, hv2, e2, rfl, h⟩ := h
  have o1 := ihl _ hv1
  have o2 := ihr _ hv2
  have hq : VisitResult.expr (.compareOperation e1 e2 co) = res := by simpa using h
  subst hq
  exact ⟨by simp [flatE, o1.1, o2.1], by simp [chainOkE, o1.2, o2.2]⟩

theorem inv_isNull (e : CST) (notTok : Bool)
    (ihe : ∀ r', visit e = .ok r' → okR r') :
    ∀ res, visit (.columnExprIsNull e notTok) = .ok res → okR res := by
  intro res h
  rw [visit_columnExprIsNull] at h
  simp only [exceptBind_ok, expectExpr_ok] at h
  obtain ⟨r1, hv1, inner, rfl, h⟩ := h
  have o1 := ihe _ hv1
  have hq : VisitResult.expr (.compareOperation inner (.constant .null)
      (if notTok then .notEq else .eq)) = res := by simpa using h
  subst hq
  exact ⟨by simp [flatE, o1.1], by simp [chainOkE, o1.2]⟩

theorem inv_not (e : CST)
    (ihe : ∀ r', visit e = .ok r' → okR r') :
    ∀ res, visit (.columnExprNot e) = .ok res → okR res := by
  intro res h
  rw [visit_columnExprNot] at h
  simp only [exceptBind_ok, expectExpr_ok] at h
  obtain ⟨r1, hv1, inner, rfl, h⟩ := h
  have o1 := ihe _ hv1
  have hq : VisitResult.expr (.notE inner) = res := by simpa using h
  subst hq
  exact ⟨by simp [flatE, o1.1], by simp [chainOkE, o1.2]⟩

theorem inv_function (name : String) (hasExprList : Bool) (argList : Option CST)
    (iha : ∀ es, visitOptList argList = .ok es → okL es) :
    ∀ res, visit (.columnExprFunction name hasExprList argList) = .ok res → okR res := by
  intro res h
  rw [visit_columnExprFunction] at h
  cases hasExprList with
  | true => exact absurd h (by simp)
  | false =>
  simp only [Bool.false_eq_true, if_false, exceptBind_ok] at h
  obtain ⟨args, hargs, h⟩ := h
  have oa := iha _ hargs
  have hq : VisitResult.expr (.call name args) = res := by simpa using h
  subst hq
  exact ⟨by simp [flatE, oa.1], by simp [chainOkE, oa.2]⟩

theorem inv_columnIdentifier (tableC : Option CST) (nestedC : CST)
    (iht : ∀ o, visitOpt tableC = .ok o → okO o)
    (ihn : ∀ r', visit nestedC = .ok r' → okR r') :
    ∀ res, visit (.columnIdentifier tableC nestedC) = .ok res → okR res := by
  intro res h
  rw [visit_columnIdentifier] at h
  simp only [exceptBind_ok, expectExpr_ok] at h
  obtain ⟨table, htab, r1, hv1, nested, rfl, h⟩ := h
  have ot := iht _ htab
  have onv := ihn _ hv1
  cases table with
  | none =>
      cases nested
      case fieldAccess f =>
        dsimp only [] at h
        split at h
        · simp only [Except.ok.injEq] at h
          subst h
          exact ⟨rfl, rfl⟩
        · split at h
          · simp only [Except.ok.injEq] at h
            subst h
            exact ⟨rfl, rfl⟩
          · simp only [Except.ok.injEq] at h
            subst h
            exact onv
      all_goals
        dsimp only [] at h
      all_goals
        simp only [Except.ok.injEq] at h
      all_goals
        subst h
      all_goals
        exact onv
  | some tbl =>
      obtain ⟨otf, otc⟩ := ot
      obtain ⟨onf, onc⟩ := onv
      have hgoal : ∀ chain1 chain2 : List Value,
          1 ≤ chain1.length → 1 ≤ chain2.length →
          VisitResult.expr (.fieldAccessChain (chain1 ++ chain2)) = res → okR res := by
        intro c1 c2 l1 l2 hq
        subst hq
        refine ⟨rfl, ?_⟩
        simp only [chainOkE, decide_eq_true_eq, List.length_append]
        omega
      cases tbl
      case fieldAccess f =>
        cases nested
        case fieldAccess f2 =>
          simp only [exceptBind_ok, exceptPure_ok] at h
          exact hgoal [.str f] [.str f2] (by simp) (by simp) (by simpa using h)
        case fieldAccessChain ch2 =>
          simp only [exceptBind_ok, exceptPure_ok] at h
          have hl2 : 1 ≤ ch2.length := by
            simp only [chainOkE, decide_eq_true_eq] at onc
            omega
          exact hgoal [.str f] ch2 (by simp) hl2 (by simpa using h)
        all_goals simp [exceptBind_ok] at h
      case fieldAccessChain ch =>
        have hl1 : 1 ≤ ch.length := by
          simp only [chainOkO, chainOkE, decide_eq_true_eq] at otc
          omega
        cases nested
        case fieldAccess f2 =>
          simp only [exceptBind_ok, exceptPure_ok] at h
          exact hgoal ch [.str f2] hl1 (by simp) (by simpa using h)
        case fieldAccessChain ch2 =>
          simp only [exceptBind_ok, exceptPure_ok] at h
          have hl2 : 1 ≤ ch2.length := by
            simp only [chainOkE, decide_eq_true_eq] at onc
            omega
          exact hgoal ch ch2 hl1 hl2 (by simpa using h)
        all_goals simp [exceptBind_ok] at h
      all_goals simp [exceptBind_ok] at h

theorem inv_nestedIdentifier (first : CST) (rest : List CST)
    (ihf : ∀ r', visit first = .ok r' → okR r')
    (_ihr : ∀ es, visitList rest = .ok es → okL es) :
    ∀ res, visit (.nestedIdentifier first rest) = .ok res → okR res := by
  intro res h
  rw [visit_nestedIdentifier] at h
  simp only [exceptBind_ok, expectExpr_ok] at h
  obtain ⟨r1, hv1, id0, rfl, idRest, hrest, h⟩ := h
  have o0 := ihf _ hv1
  cases idRest with
  | nil =>
      have hq : VisitResult.expr id0 = res := by simpa using h
      subst hq
      exact o0
  | cons e2 tl =>
      simp only [exceptBind_ok] at h
      obtain ⟨fields, hfields, h⟩ := h
      have hq : VisitResult.expr (.fieldAccessChain fields) = res := by simpa using h
      subst hq
      refine ⟨rfl, ?_⟩
      have hlen := fieldsOf_length _ _ hfields
      simp only [chainOkE, decide_eq_true_eq]
      simp only [List.length_cons] at hlen
      omega

set_option maxHeartbeats 2000000 in
theorem visit_inv : ∀ n : Nat,
    (∀ t : CST, sizeOf t < n → ∀ r, visit t = .ok r → okR r) ∧
    (∀ ts : List CST, sizeOf ts < n → ∀ es, visitList ts = .ok es → okL es) ∧
    (∀ c : Option CST, sizeOf c < n → ∀ o, visitOpt c = .ok o → okO o) ∧
    (∀ c : Option CST, sizeOf c < n → ∀ es, visitOptList c = .ok es → okL es) := by
  intro n
  induction n with
  | zero =>
      refine ⟨?_, ?_, ?_, ?_⟩ <;> intro x hx <;> exact absurd hx (by omega)
  | succ n ih =>
      obtain ⟨ihE, ihL, ihO, ihOL⟩ := ih
      refine ⟨?_, ?_, ?_, ?_⟩
      · intro t hs
        cases t with
        | selectQueryC inner =>
            intro r h
            rw [visit_selectQueryC] at h
            exact ihE inner (by simp at hs; omega) r h
        | selectUnionStmt selects =>
            intro r h
            rw [visit_selectUnionStmt] at h
            rcases selects with _ | ⟨s, _ | ⟨s2, tl⟩⟩
            · simp at h
            · exact ihE s (by simp at hs; omega) r h
            · simp at h
        | selectStmtWithParens inner =>
            intro r h
            rw [visit_selectStmtWithParens] at h
            exact ihE inner (by simp at hs; omega) r h
        | selectStmt columns fromC whereC prewhereC havingC limitC withC topC arrayJoinC windowC groupByC orderByC limitByC settingsC =>
            exact inv_selectStmt columns fromC whereC prewhereC havingC limitC
              withC topC arrayJoinC windowC groupByC orderByC limitByC settingsC
              (ihOL columns (by simp at hs; omega))
              (ihO fromC (by simp at hs; omega))
              (ihO whereC (by simp at hs; omega))
              (ihO prewhereC (by simp at hs; omega))
              (ihO havingC (by simp at hs; omega))
        | fromClause join =>
            intro r h
            rw [visit_fromClause] at h
            exact ihE join (by simp at hs; omega) r h
        | whereClause e =>
            intro r h
            rw [visit_whereClause] at h
            exact ihE e (by simp at hs; omega) r h
        | prewhereClause e =>
            intro r h
            rw [visit_prewhereClause] at h
            exact ihE e (by simp at hs; omega) r h
        | havingClause e =>
            intro r h
            rw [visit_havingClause] at h
            exact ihE e (by simp at hs; omega) r h
        | joinExprOp globalTok localTok join1C join2C opC constraintC =>
            exact inv_joinExprOp globalTok localTok join1C join2C opC constraintC
              (ihE join1C (by simp at hs; omega))
              (ihE join2C (by simp at hs; omega))
              (ihE constraintC (by simp at hs; omega))
        | joinExprTable sample finalTok tableC =>
            exact inv_joinExprTable sample finalTok tableC
              (ihE tableC (by simp at hs; omega))
        | joinExprParens join =>
            intro r h
            rw [visit_joinExprParens] at h
            exact ihE join (by simp at hs; omega) r h
        | joinOpInner a b c d e =>
            intro r h
            rw [visit_joinOpInner] at h
            simp only [Except.ok.injEq] at h
            subst h
            trivial
        | joinOpLeftRight a b c d e f g hh =>
            intro r h
            rw [visit_joinOpLeftRight] at h
            simp only [Except.ok.injEq] at h
            subst h
            trivial
        | joinOpFull a b c d =>
            intro r h
            rw [visit_joinOpFull] at h
            simp only [Except.ok.injEq] at h
            subst h
            trivial
        | joinConstraintClause usingTok exprsC =>
            exact inv_joinConstraintClause usingTok exprsC
              (ihE exprsC (by simp at hs; omega))
        | columnExprList cols =>
            intro r h
            rw [visit_columnExprList] at h
            simp only [exceptBind_ok] at h
            obtain ⟨es, hes, h⟩ := h
            have hq : VisitResult.exprList es = r := by simpa using h
            subst hq
            exact ihL cols (by simp at hs; omega) es hes
        | columnsExprAsterisk =>
            intro r h
            rw [visit_columnsExprAsterisk] at h
            have hq : VisitResult.expr (.fieldAccess "*") = r := by simpa using h
            subst hq
            exact ⟨rfl, rfl⟩
        | columnExprAsterisk =>
            intro r h
            rw [visit_columnExprAsterisk] at h
            have hq : VisitResult.expr (.fieldAccess "*") = r := by simpa using h
            subst hq
            exact ⟨rfl, rfl⟩
        | columnExprWithComment e =>
            intro r h
            rw [visit_columnExprWithComment] at h
            exact ihE e (by simp at hs; omega) r h
        | columnExprAnd l rr =>
            exact inv_and l rr (ihE l (by simp at hs; omega)) (ihE rr (by simp at hs; omega))
        | columnExprOr l rr =>
            exact inv_or l rr (ihE l (by simp at hs; omega)) (ihE rr (by simp at hs; omega))
        | columnExprNot e =>
            exact inv_not e (ihE e (by simp at hs; omega))
        | columnExprParens e =>
            intro r h
            rw [visit_columnExprParens] at h
            exact ihE e (by simp at hs; omega) r h
        | columnExprIsNull e notTok =>
            exact inv_isNull e notTok (ihE e (by simp at hs; omega))
        | columnExprArrayAccess objC keyC =>
            exact inv_arrayAccess objC keyC (ihE objC (by simp at hs; omega))
        | columnExprPrecedence1 l op rr =>
            exact inv_precedence1 l op rr
              (ihE l (by simp at hs; omega)) (ihE rr (by simp at hs; omega))
        | columnExprPrecedence2 l op rr =>
            exact inv_precedence2 l op rr
              (ihE l (by simp at hs; omega)) (ihE rr (by simp at hs; omega))
        | columnExprPrecedence3 l op notTok globalTok rr =>
            exact inv_precedence3 l op notTok globalTok rr
              (ihE l (by simp at hs; omega)) (ihE rr (by simp at hs; omega))
        | columnExprFunction name hasExprList argList =>
            exact inv_function name hasExprList argList
              (ihOL argList (by simp at hs; omega))
        | columnArgList args =>
            intro r h
            rw [visit_columnArgList] at h
            simp only [exceptBind_ok] at h
            obtain ⟨es, hes, h⟩ := h
            have hq : VisitResult.exprList es = r := by simpa using h
            subst hq
            exact ihL args (by simp at hs; omega) es hes
        | columnExprSubquery sel =>
            intro r h
            rw [visit_columnExprSubquery] at h
            exact ihE sel (by simp at hs; omega) r h
        | columnsExprSubquery sel =>
            intro r h
            rw [visit_columnsExprSubquery] at h
            exact ihE sel (by simp at hs; omega) r h
        | tableExprSubquery sel =>
            intro r h
            rw [visit_tableExprSubquery] at h
            exact ihE sel (by simp at hs; omega) r h
        | columnIdentifier tableC nestedC =>
            exact inv_columnIdentifier tableC nestedC
              (ihO tableC (by simp at hs; omega))
              (ihE nestedC (by simp at hs; omega))
        | nestedIdentifier first rest =>
            exact inv_nestedIdentifier first rest
              (ihE first (by simp at hs; omega))
              (ihL rest (by simp at hs; omega))
        | identifier text =>
            intro r h
            rw [visit_identifier] at h
            have hq : VisitResult.expr (.fieldAccess text) = r := by simpa using h
            subst hq
            exact ⟨rfl, rfl⟩
        | identifierTS ts =>
            intro r h
            rw [visit_identifierTS] at h
            exact ihE ts (by simp at hs; omega) r h
        | templateString content =>
            intro r h
            rw [visit_templateString] at h
            have hq : VisitResult.expr (.placeholder content) = r := by simpa using h
            subst hq
            exact ⟨rfl, rfl⟩
        | tableIdentifier db name =>
            intro r h
            rw [visit_tableIdentifier] at h
            cases db with
            | some d =>
                have hq : VisitResult.expr (.fieldAccessChain [.str d, .str name]) = r := by
                  simpa using h
                subst hq
                exact ⟨rfl, rfl⟩
            | none =>
                have hq : VisitResult.expr (.fieldAccess name) = r := by simpa using h
                subst hq
                exact ⟨rfl, rfl⟩
        | tableExprAlias tableC aliasText =>
            intro r h
            rw [visit_tableExprAlias] at h
            simp only [exceptBind_ok, expectExpr_ok] at h
            obtain ⟨r1, hv1, table, rfl, h⟩ := h
            have ot := ihE tableC (by simp at hs; omega) _ hv1
            have hq : VisitResult.expr (.joinExpr table none (some aliasText) none none none) = r := by
              simpa using h
            subst hq
            exact ⟨by simp [flatE, flatO, ot.1], by simp [chainOkE, chainOkO, ot.2]⟩
        | numberLiteral text =>
            intro r h
            rw [visit_numberLiteral] at h
            split at h
            · have hq : VisitResult.expr (.constant (.float text)) = r := by simpa using h
              subst hq
              exact ⟨rfl, rfl⟩
            · have hq : VisitResult.expr (.constant (.int (pyInt text))) = r := by simpa using h
              subst hq
              exact ⟨rfl, rfl⟩
        | nullLiteral =>
            intro r h
            rw [visit_nullLiteral] at h
            have hq : VisitResult.expr (.constant .null) = r := by simpa using h
            subst hq
            exact ⟨rfl, rfl⟩
        | stringLiteral content =>
            intro r h
            rw [visit_stringLiteral] at h
            have hq : VisitResult.expr (.constant (.str content)) = r := by simpa using h
            subst hq
            exact ⟨rfl, rfl⟩
        | unsupportedNode name =>
            intro r h
            rw [visit_unsupportedNode] at h
            simp at h
      · intro ts hs
        cases ts with
        | nil =>
            intro es h
            rw [visitList_nil] at h
            have hq : ([] : List Expr) = es := by simpa using h
            subst hq
            exact ⟨rfl, rfl⟩
        | cons c cs =>
            intro es h
            rw [visitList_cons] at h
            simp only [exceptBind_ok, expectExpr_ok] at h
            obtain ⟨r1, hv1, e, rfl, es', hes', h⟩ := h
            have oe := ihE c (by simp at hs; omega) _ hv1
            have oes := ihL cs (by simp at hs; omega) _ hes'
            have hq : e :: es' = es := by simpa using h
            subst hq
            exact ⟨by simp [flatL, oe.1, oes.1], by simp [chainOkL, oe.2, oes.2]⟩
      · intro c hs
        cases c with
        | none =>
            intro o h
            rw [visitOpt_none] at h
            have hq : (none : Option Expr) = o := by simpa using h
            subst hq
            exact ⟨rfl, rfl⟩
        | some c =>
            intro o h
            rw [visitOpt_some] at h
            simp only [exceptBind_ok, expectExpr_ok, exceptPure_ok] at h
            obtain ⟨r1, hv1, e, rfl, h⟩ := h
            have oe := ihE c (by simp at hs; omega) _ hv1
            have hq : (some e : Option Expr) = o := by simpa using h
            subst hq
            exact ⟨oe.1, oe.2⟩
      · intro c hs
        cases c with
        | none =>
            intro es h
            rw [visitOptList_none] at h
            have hq : ([] : List Expr) = es := by simpa using h
            subst hq
            exact ⟨rfl, rfl⟩
        | some c =>
            intro es h
            rw [visitOptList_some] at h
            simp only [exceptBind_ok, expectList_ok] at h
            obtain ⟨r1, hv1, h⟩ := h
            subst h
            exact ihE c (by simp at hs; omega) _ hv1

theorem visit_ok_inv (t : CST) (r : VisitResult) (h : visit t = .ok r) : okR r :=
  ((visit_inv (sizeOf t + 1)).1 t (by omega)) r h


/-- A non-`And` operand contributes itself as a singleton element list. -/
theorem andOperands_single (e : Expr) (h : e.isAnd = false) : andOperands e = [e] := by
  cases e <;> simp_all [andOperands, Expr.isAnd]

/-- A non-`Or` operand contributes itself as a singleton element list. -/
theorem orOperands_single (e : Expr) (h : e.isOr = false) : orOperands e = [e] := by
  cases e <;> simp_all [orOperands, Expr.isOr]

/-- The boolean flattener's defining equation for `AND`: the result is
the order-preserving concatenation of the two operands' element lists. -/
theorem visitAnd_splice (l r : CST) (el er : Expr)
    (hl : visit l = .ok (.expr el)) (hr : visit r = .ok (.expr er)) :
    visit (.columnExprAnd l r) = .ok (.expr (.andE (andOperands el ++ andOperands er))) := by
  rw [visit_columnExprAnd]
  simp only [exceptBind_ok, expectExpr_ok]
  exact ⟨_, hl, el, rfl, _, hr, er, rfl, rfl⟩

/-- The boolean flattener's defining equation for `OR`. -/
theorem visitOr_splice (l r : CST) (el er : Expr)
    (hl : visit l = .ok (.expr el)) (hr : visit r = .ok (.expr er)) :
    visit (.columnExprOr l r) = .ok (.expr (.orE (orOperands el ++ orOperands er))) := by
  rw [visit_columnExprOr]
  simp only [exceptBind_ok, expectExpr_ok]
  exact ⟨_, hl, el, rfl, _, hr, er, rfl, rfl⟩

/-- A three-operand `AND` chain of non-`And` operands flattens to one
three-element `And` in source order under either associativity. -/
theorem visitAnd_chain3 (ta tb tc : CST) (ea eb ec : Expr)
    (ha : visit ta = .ok (.expr ea)) (hb : visit tb = .ok (.expr eb))
    (hc : visit tc = .ok (.expr ec))
    (na : ea.isAnd = false) (nb : eb.isAnd = false) (nc : ec.isAnd = false) :
    visit (.columnExprAnd (.columnExprAnd ta tb) tc) = .ok (.expr (.andE [ea, eb, ec])) ∧
    visit (.columnExprAnd ta (.columnExprAnd tb tc)) = .ok (.expr (.andE [ea, eb, ec])) := by
  constructor
  · have hin := visitAnd_splice ta tb ea eb ha hb
    rw [andOperands_single ea na, andOperands_single eb nb] at hin
    have hout := visitAnd_splice _ tc _ ec hin hc
    rw [andOperands_single ec nc] at hout
    simpa [andOperands] using hout
  · have hin := visitAnd_splice tb tc eb ec hb hc
    rw [andOperands_single eb nb, andOperands_single ec nc] at hin
    have hout := visitAnd_splice ta _ ea _ ha hin
    rw [andOperands_single ea na] at hout
    simpa [andOperands] using hout

/-- C1: converting `SELECT * FROM a JOIN b ON a.id = b.id JOIN c ON
b.id = c.id` builds each binary join by converting both sides, walking
the left chain to the first node with an unset `join_expr` link and
attaching the right side there with the join type and constraint; the
head of the left chain is returned, so the result is the three-node
chain `a → b → c` in table order with join type `"JOIN"` and the
matching constraint on the two non-tail nodes and nothing on the
tail. -/
theorem C1_join_chain :
    parse_statement c1CST [] = .ok c1AST ∧
    chainList c1Chain =
      [(.fieldAccess "a", some "JOIN", some c1CmpAB),
       (.fieldAccess "b", some "JOIN", some c1CmpBC),
       (.fieldAccess "c", none, none)] := ⟨rfl, rfl⟩

/-- C2: every expression the converter produces is maximally flattened —
no `And` node has an `And` as a direct child and no `Or` has an `Or`
(first conjunct, via the `flatE` traversal); a binary `AND`/`OR`
production's `exprs` is exactly the order-preserving concatenation of
its operands' element lists, splicing an operand of the same kind and
treating any other operand as a singleton (second conjunct); and a
three-operand chain `a AND b AND c` of non-`And` operands yields a
single `And` with exactly three elements in source order whichever way
the grammar associates it (third conjunct). -/
theorem C2_boolean_flattening :
    (∀ (t : CST) (e : Expr), visit t = .ok (.expr e) → flatE e = true) ∧
    (∀ (l r : CST) (el er : Expr), visit l = .ok (.expr el) → visit r = .ok (.expr er) →
      visit (.columnExprAnd l r) = .ok (.expr (.andE (andOperands el ++ andOperands er))) ∧
      visit (.columnExprOr l r) = .ok (.expr (.orE (orOperands el ++ orOperands er)))) ∧
    (∀ (ta tb tc : CST) (ea eb ec : Expr),
      visit ta = .ok (.expr ea) → visit tb = .ok (.expr eb) → visit tc = .ok (.expr ec) →
      ea.isAnd = false → eb.isAnd = false → ec.isAnd = false →
      visit (.columnExprAnd (.columnExprAnd ta tb) tc) = .ok (.expr (.andE [ea, eb, ec])) ∧
      visit (.columnExprAnd ta (.columnExprAnd tb tc)) = .ok (.expr (.andE [ea, eb, ec]))) := by
  refine ⟨?_, ?_, ?_⟩
  · intro t e h
    exact (visit_ok_inv t (.expr e) h).1
  · intro l r el er hl hr
    exact ⟨visitAnd_splice l r el er hl hr, visitOr_splice l r el er hl hr⟩
  · intro ta tb tc ea eb ec ha hb hc na nb nc
    exact visitAnd_chain3 ta tb tc ea eb ec ha hb hc na nb nc

/-- Witness for C2 at the chain `a AND b AND c` of plain identifiers:
both associativities produce the same flat three-element `And`. -/
theorem C2_boolean_flattening_witness :
    visit (.columnExprAnd (.columnExprAnd (colIdCST "a") (colIdCST "b")) (colIdCST "c")) =
      .ok (.expr (.andE [.fieldAccess "a", .fieldAccess "b", .fieldAccess "c"])) ∧
    visit (.columnExprAnd (colIdCST "a") (.columnExprAnd (colIdCST "b") (colIdCST "c"))) =
      .ok (.expr (.andE [.fieldAccess "a", .fieldAccess "b", .fieldAccess "c"])) :=
  C2_boolean_flattening.2.2 (colIdCST "a") (colIdCST "b") (colIdCST "c")
    (.fieldAccess "a") (.fieldAccess "b") (.fieldAccess "c") rfl rfl rfl rfl rfl rfl

/-- C3: the LIMIT/OFFSET resolution: a limit expression that converts to
a `Constant` passing the integer instance check is recorded as the
limit; any other conversion result raises `"LIMIT must be an integer"`;
the same rule applies to the second positional argument as OFFSET (with
the matching message); in particular `SELECT 1 LIMIT 1.5` fails with
that error and `SELECT 1 LIMIT 5 OFFSET 2` succeeds with `limit = 5`
and `offset = 2`. -/
theorem C3_limit_offset_resolution :
    (∀ (e1 : CST) (v : Value), visit e1 = .ok (.expr (.constant v)) → v.isInstInt = true →
      visitLimitClause (some (some (e1, none))) = .ok (some v, none)) ∧
    (∀ (e1 : CST) (e : Expr), visit e1 = .ok (.expr e) → isIntConstant e = false →
      visitLimitClause (some (some (e1, none))) =
        .error (.exception "LIMIT must be an integer")) ∧
    (∀ (e2 : CST) (e : Expr), visit e2 = .ok (.expr e) → isIntConstant e = false →
      visitLimitClause (some (some (.numberLiteral "5", some e2))) =
        .error (.exception "OFFSET must be an integer")) ∧
    parse_statement c3FloatCST [] = .error (.exception "LIMIT must be an integer") ∧
    parse_statement c3OffsetCST [] =
      .ok (.selectQuery [.constant (.int 1)] none none none none
        (some (.int 5)) (some (.int 2))) := by
  refine ⟨?_, ?_, ?_, rfl, rfl⟩
  · intro e1 v h hv
    rw [visitLimitClause_some]
    simp [h, hv, bind, Except.bind, expectExpr, pure, Except.pure]
  · intro e1 e h he
    rw [visitLimitClause_some]
    cases e <;>
      simp_all [isIntConstant, bind, Except.bind, expectExpr, pure, Except.pure]
  · intro e2 e h he
    rw [visitLimitClause_some]
    have h5 : visit (.numberLiteral "5") = .ok (.expr (.constant (.int 5))) := rfl
    cases e <;>
      simp_all [isIntConstant, Value.isInstInt, bind, Except.bind, expectExpr,
        pure, Except.pure]

/-- Witness for C3 on concrete limit expressions: an integer literal is
accepted, a float literal is rejected for LIMIT, and a float offset is
rejected with the OFFSET message. -/
theorem C3_limit_offset_resolution_witness :
    visitLimitClause (some (some (.numberLiteral "7", none))) = .ok (some (.int 7), none) ∧
    visitLimitClause (some (some (.numberLiteral "1.5", none))) =
      .error (.exception "LIMIT must be an integer") ∧
    visitLimitClause (some (some (.numberLiteral "5", some (.numberLiteral "2.5")))) =
      .error (.exception "OFFSET must be an integer") :=
  ⟨C3_limit_offset_resolution.1 (.numberLiteral "7") (.int 7) rfl rfl,
   C3_limit_offset_resolution.2.1 (.numberLiteral "1.5") (.constant (.float "1.5")) rfl rfl,
   C3_limit_offset_resolution.2.2.1 (.numberLiteral "2.5") (.constant (.float "2.5")) rfl rfl⟩

/-- C4: the converter maps the multiplicative, additive and comparison
operator tokens to the corresponding `BinaryOperation`/
`CompareOperation` kinds (first conjunct); the grammar's precedence
tiers (modelled from the spec) bind multiplicative tighter than
additive for any three numeral atoms (second conjunct); and
`parse_expression("1 + 2 * 3")` yields
`BinaryOperation(Add, Constant(1), BinaryOperation(Mult, Constant(2),
Constant(3)))`, with comparison binding loosest in
`"1 * 2 + 3 < 4"`. -/
theorem C4_arithmetic_precedence :
    (∀ (l r : CST) (el er : Expr), visit l = .ok (.expr el) → visit r = .ok (.expr er) →
      visit (.columnExprPrecedence1 l .asterisk r) = .ok (.expr (.binaryOperation el er .mult)) ∧
      visit (.columnExprPrecedence1 l .slash r) = .ok (.expr (.binaryOperation el er .div)) ∧
      visit (.columnExprPrecedence1 l .percent r) = .ok (.expr (.binaryOperation el er .mod)) ∧
      visit (.columnExprPrecedence2 l .plus r) = .ok (.expr (.binaryOperation el er .add)) ∧
      visit (.columnExprPrecedence2 l .dash r) = .ok (.expr (.binaryOperation el er .sub)) ∧
      visit (.columnExprPrecedence3 l .eqSingle false false r) =
        .ok (.expr (.compareOperation el er .eq)) ∧
      visit (.columnExprPrecedence3 l .ltTok false false r) =
        .ok (.expr (.compareOperation el er .lt))) ∧
    (∀ a b c : String,
      parseAddA 4 [.num a, .plusT, .num b, .starT, .num c] =
        some (.columnExprPrecedence2 (.numberLiteral a) .plus
          (.columnExprPrecedence1 (.numberLiteral b) .asterisk (.numberLiteral c)), [])) ∧
    parse_expression_arith "1 + 2 * 3" [] =
      some (.ok (.binaryOperation (.constant (.int 1))
        (.binaryOperation (.constant (.int 2)) (.constant (.int 3)) .mult) .add)) ∧
    parse_expression_arith "1 * 2 + 3 < 4" [] =
      some (.ok (.compareOperation
        (.binaryOperation (.binaryOperation (.constant (.int 1)) (.constant (.int 2)) .mult)
          (.constant (.int 3)) .add)
        (.constant (.int 4)) .lt)) := by
  refine ⟨?_, fun a b c => rfl, rfl, rfl⟩
  intro l r el er hl hr
  refine ⟨?_, ?_, ?_, ?_, ?_, ?_, ?_⟩
  · rw [visit_columnExprPrecedence1]
    simp only [exceptBind_ok, exceptPure_ok, expectExpr_ok, p1OpResolve]
    exact ⟨_, rfl, _, hl, el, rfl, _, hr, er, rfl, rfl⟩
  · rw [visit_columnExprPrecedence1]
    simp only [exceptBind_ok, exceptPure_ok, expectExpr_ok, p1OpResolve]
    exact ⟨_, rfl, _, hl, el, rfl, _, hr, er, rfl, rfl⟩
  · rw [visit_columnExprPrecedence1]
    simp only [exceptBind_ok, exceptPure_ok, expectExpr_ok, p1OpResolve]
    exact ⟨_, rfl, _, hl, el, rfl, _, hr, er, rfl, rfl⟩
  · rw [visit_columnExprPrecedence2]
    simp only [exceptBind_ok, exceptPure_ok, expectExpr_ok, p2OpResolve]
    exact ⟨_, rfl, _, hl, el, rfl, _, hr, er, rfl, rfl⟩
  · rw [visit_columnExprPrecedence2]
    simp only [exceptBind_ok, exceptPure_ok, expectExpr_ok, p2OpResolve]
    exact ⟨_, rfl, _, hl, el, rfl, _, hr, er, rfl, rfl⟩
  · rw [visit_columnExprPrecedence3]
    simp only [exceptBind_ok, exceptPure_ok, expectExpr_ok, p3OpResolve]
    exact ⟨_, rfl, _, hl, el, rfl, _, hr, er, rfl, rfl⟩
  · rw [visit_columnExprPrecedence3]
    simp only [exceptBind_ok, exceptPure_ok, expectExpr_ok, p3OpResolve]
    exact ⟨_, rfl, _, hl, el, rfl, _, hr, er, rfl, rfl⟩

/-- Witness for C4 at number literals: `3 * 4` converts to a
multiplication node. -/
theorem C4_arithmetic_precedence_witness :
    visit (.columnExprPrecedence1 (.numberLiteral "3") .asterisk (.numberLiteral "4")) =
      .ok (.expr (.binaryOperation (.constant (.int 3)) (.constant (.int 4)) .mult)) :=
  (C4_arithmetic_precedence.1 (.numberLiteral "3") (.numberLiteral "4")
    (.constant (.int 3)) (.constant (.int 4)) rfl rfl).1

/-- C5 counterexample: the claim says the multi-expression `JOIN … ON`
and array-access violations raise an error kind distinct from the
"not implemented" kind used for unsupported grammar productions, but
the code raises `NotImplementedError` for them — the very same kind an
unsupported production such as `GroupByClause` raises. -/
theorem C5_error_kinds_counterexample :
    visit (.joinConstraintClause false (.columnExprList [colIdCST "a", colIdCST "b"])) =
      .error (.notImplemented "Unsupported: JOIN ... ON with multiple expressions") ∧
    visit (.columnExprArrayAccess (colIdCST "a") (colIdCST "b")) =
      .error (.notImplemented "Array access must be performed with a constant.") ∧
    visit (.unsupportedNode "GroupByClause") =
      .error (.notImplemented "Unsupported node: GroupByClause") ∧
    Err.isNotImplemented
        (.notImplemented "Unsupported: JOIN ... ON with multiple expressions") = true ∧
    Err.isNotImplemented (.notImplemented "Unsupported node: GroupByClause") = true :=
  ⟨rfl, rfl, rfl, rfl, rfl⟩

/-- C5 amended: of the three semantic rule violations, only the
non-integer LIMIT/OFFSET check raises a distinct plain `Exception`
("LIMIT must be an integer"); the multi-expression `JOIN … ON`
constraint and both array-access violations raise `NotImplementedError`,
the same error kind used for recognized-but-unimplemented grammar
productions. -/
theorem C5_error_kinds_amended :
    parse_statement c3FloatCST [] = .error (.exception "LIMIT must be an integer") ∧
    Err.isNotImplemented (.exception "LIMIT must be an integer") = false ∧
    visit (.joinConstraintClause false (.columnExprList [colIdCST "a", colIdCST "b"])) =
      .error (.notImplemented "Unsupported: JOIN ... ON with multiple expressions") ∧
    visit (.columnExprArrayAccess (colIdCST "a") (colIdCST "b")) =
      .error (.notImplemented "Array access must be performed with a constant.") ∧
    visit (.columnExprArrayAccess (.numberLiteral "1") (.numberLiteral "2")) =
      .error (.notImplemented
        "Unsupported combination for ColumnExprArrayAccess: Constant[Constant]") :=
  ⟨rfl, rfl, rfl, rfl, rfl⟩

/-- C6 counterexample: array access with the integer constant key `1`
stores the integer itself as a chain segment, so not every segment of a
converter-produced `FieldAccessChain` is a string: `a[1]` yields the
chain `["a", 1]` whose second segment fails the string instance
check. -/
theorem C6_chain_segments_counterexample :
    parse_expr c6ArrayCST [] = .ok (.fieldAccessChain [.str "a", .int 1]) ∧
    Value.isInstStr (.int 1) = false := ⟨rfl, rfl⟩

/-- C6 amended: every `FieldAccessChain` the converter produces has at
least two segments (first conjunct, via the `chainOkE` traversal); a
single-segment identifier yields a `FieldAccess` instead (second
conjunct); and array access with a `Constant` key on a `FieldAccess` or
`FieldAccessChain` base merges base and key into one flattened chain
whose appended segment is the key's constant value — a string only when
the key is a string constant (third and fourth conjuncts). -/
theorem C6_chain_segments_amended :
    (∀ (t : CST) (e : Expr), visit t = .ok (.expr e) → chainOkE e = true) ∧
    (∀ s : String, visit (.nestedIdentifier (.identifier s) []) =
      .ok (.expr (.fieldAccess s))) ∧
    (∀ (objC keyC : CST) (f : String) (v : Value),
      visit objC = .ok (.expr (.fieldAccess f)) → visit keyC = .ok (.expr (.constant v)) →
      visit (.columnExprArrayAccess objC keyC) =
        .ok (.expr (.fieldAccessChain [.str f, v]))) ∧
    (∀ (objC keyC : CST) (ch : List Value) (v : Value),
      visit objC = .ok (.expr (.fieldAccessChain ch)) →
      visit keyC = .ok (.expr (.constant v)) →
      visit (.columnExprArrayAccess objC keyC) =
        .ok (.expr (.fieldAccessChain (ch ++ [v])))) := by
  refine ⟨?_, fun s => rfl, ?_, ?_⟩
  · intro t e h
    exact (visit_ok_inv t (.expr e) h).2
  · intro objC keyC f v ho hk
    rw [visit_columnExprArrayAccess]
    simp only [exceptBind_ok, expectExpr_ok]
    exact ⟨_, ho, _, rfl, _, hk, _, rfl, rfl⟩
  · intro objC keyC ch v ho hk
    rw [visit_columnExprArrayAccess]
    simp only [exceptBind_ok, expectExpr_ok]
    exact ⟨_, ho, _, rfl, _, hk, _, rfl, rfl⟩

/-- Witness for C6 amended: the chain built for `a[1]` has two
segments, and extending it with a string key `['x']` flattens into one
three-segment chain. -/
theorem C6_chain_segments_amended_witness :
    chainOkE (.fieldAccessChain [.str "a", .int 1]) = true ∧
    visit (.columnExprArrayAccess (colIdCST "a") (.numberLiteral "1")) =
      .ok (.expr (.fieldAccessChain [.str "a", .int 1])) ∧
    visit (.columnExprArrayAccess
        (.columnExprArrayAccess (colIdCST "a") (.numberLiteral "1"))
        (.stringLiteral "x")) =
      .ok (.expr (.fieldAccessChain [.str "a", .int 1, .str "x"])) :=
  ⟨C6_chain_segments_amended.1
      (.columnExprArrayAccess (colIdCST "a") (.numberLiteral "1"))
      (.fieldAccessChain [.str "a", .int 1]) rfl,
   C6_chain_segments_amended.2.2.1 (colIdCST "a") (.numberLiteral "1") "a" (.int 1) rfl rfl,
   C6_chain_segments_amended.2.2.2
      (.columnExprArrayAccess (colIdCST "a") (.numberLiteral "1"))
      (.stringLiteral "x") [.str "a", .int 1] (.str "x") rfl rfl⟩

/-- C7: whenever any of the eight recognized-but-unsupported clauses
(`WITH`, `TOP`, `ARRAY JOIN`, `WINDOW`, `GROUP BY`, `ORDER BY`,
`LIMIT BY`, `SETTINGS`) is present on a select statement, conversion
never returns an AST (first conjunct), and
`parse_statement("SELECT 1 GROUP BY 1")` fails with the
`NotImplementedError` naming the group-by clause (second conjunct). -/
theorem C7_unsupported_clauses :
    (∀ (columns fromC whereC prewhereC havingC : Option CST)
      (limitC : Option (Option (CST × Option CST)))
      (withC topC arrayJoinC windowC groupByC orderByC limitByC settingsC : Bool),
      (withC || topC || arrayJoinC || windowC ||
        groupByC || orderByC || limitByC || settingsC) = true →
      ∀ r, visit (.selectStmt columns fromC whereC prewhereC havingC limitC
        withC topC arrayJoinC windowC groupByC orderByC limitByC settingsC) ≠ .ok r) ∧
    parse_statement c7CST [] =
      .error (.notImplemented "Unsupported: SelectStmt.groupByClause()") := by
  refine ⟨?_, rfl⟩
  intro columns fromC whereC prewhereC havingC limitC
    withC topC arrayJoinC windowC groupByC orderByC limitByC settingsC hflag r h
  rw [visit_selectStmt] at h
  simp only [exceptBind_ok] at h
  obtain ⟨select, hsel, sf, hsf, w, hw, p, hp, hvg, hh, lo, hlo, h⟩ := h
  iterate 8 (all_goals try split at h)
  all_goals simp_all

/-- Witness for C7: a select statement carrying a group-by clause never
converts to an AST node. -/
theorem C7_unsupported_clauses_witness :
    visit (.selectStmt none none none none none none
        false false false false true false false false) ≠ .ok (.expr (.constant .null)) :=
  C7_unsupported_clauses.1 none none none none none none
    false false false false true false false false rfl (.expr (.constant .null))

/-- C8: a bare identifier with no table qualifier whose text lower-cases
to `"true"`/`"false"` converts to the boolean `Constant` (first two
conjuncts), while the same identifier reached through a table-qualified
path skips the check and becomes a `FieldAccessChain` of the segments
(third conjunct, for any segment text including `"true"`). -/
theorem C8_boolean_identifiers :
    (∀ t : String, pyLower t = "true" →
      visit (.columnIdentifier none (.nestedIdentifier (.identifier t) [])) =
        .ok (.expr (.constant (.bool true)))) ∧
    (∀ t : String, pyLower t = "false" →
      visit (.columnIdentifier none (.nestedIdentifier (.identifier t) [])) =
        .ok (.expr (.constant (.bool false)))) ∧
    (∀ tbl t : String,
      visit (.columnIdentifier (some (.tableIdentifier none tbl))
          (.nestedIdentifier (.identifier t) [])) =
        .ok (.expr (.fieldAccessChain [.str tbl, .str t]))) := by
  refine ⟨?_, ?_, fun tbl t => rfl⟩
  · intro t ht
    rw [visit_columnIdentifier]
    simp only [visitOpt_none, exceptBind_ok, exceptPure_ok, expectExpr_ok]
    refine ⟨none, rfl, .expr (.fieldAccess t), rfl, .fieldAccess t, rfl, ?_⟩
    simp only [CST.text, CST.textDotted, String.append_empty]
    rw [show ("" ++ t : String) = t by simp, ht]
    simp
  · intro t ht
    rw [visit_columnIdentifier]
    simp only [visitOpt_none, exceptBind_ok, exceptPure_ok, expectExpr_ok]
    refine ⟨none, rfl, .expr (.fieldAccess t), rfl, .fieldAccess t, rfl, ?_⟩
    simp only [CST.text, CST.textDotted, String.append_empty]
    rw [show ("" ++ t : String) = t by simp, ht]
    simp

/-- Witness for C8: `TRUE` and `False` become boolean constants when
unqualified; `x.true` stays a field access chain. -/
theorem C8_boolean_identifiers_witness :
    visit (.columnIdentifier none (.nestedIdentifier (.identifier "TRUE") [])) =
      .ok (.expr (.constant (.bool true))) ∧
    visit (.columnIdentifier none (.nestedIdentifier (.identifier "False") [])) =
      .ok (.expr (.constant (.bool false))) ∧
    visit (.columnIdentifier (some (.tableIdentifier none "x"))
        (.nestedIdentifier (.identifier "true") [])) =
      .ok (.expr (.fieldAccessChain [.str "x", .str "true"])) :=
  ⟨C8_boolean_identifiers.1 "TRUE" rfl,
   C8_boolean_identifiers.2.1 "False" rfl,
   C8_boolean_identifiers.2.2 "x" "true"⟩

/-- C9: the template string for `foo` parses to `Placeholder "foo"`
(unchanged when no bindings are supplied, since the substitution pass is
skipped entirely — third conjunct, for any tree); supplying the binding
`foo ↦ Constant 42` replaces the placeholder with the bound
expression. -/
theorem C9_placeholder_substitution :
    parse_expr c9PlaceholderCST [] = .ok (.placeholder "foo") ∧
    parse_expr c9PlaceholderCST [("foo", .constant (.int 42))] = .ok (.constant (.int 42)) ∧
    (∀ (tree : CST) (node : Expr), visit tree = .ok (.expr node) →
      parse_expr tree [] = .ok node ∧ parse_statement tree [] = .ok node) := by
  refine ⟨rfl, rfl, ?_⟩
  intro tree node h
  constructor <;>
    simp [parse_expr, parse_statement, h, bind, Except.bind, expectExpr, List.isEmpty]

/-- Witness for C9: the placeholder expression itself is returned
unchanged by both entry points when no bindings are supplied. -/
theorem C9_placeholder_substitution_witness :
    parse_expr c9PlaceholderCST [] = .ok (.placeholder "foo") ∧
    parse_statement c9PlaceholderCST [] = .ok (.placeholder "foo") :=
  C9_placeholder_substitution.2.2 c9PlaceholderCST (.placeholder "foo") rfl

/-- C10: because Python booleans are integers, the LIMIT integer check
accepts a boolean `Constant`: `SELECT 1 LIMIT true` succeeds and the
recorded limit is the boolean value `True` itself (the second conjunct
shows the stored value is the boolean constructor, the third that the
boolean passes the `isinstance(…, int)` test). -/
theorem C10_limit_accepts_boolean :
    parse_statement c10CST [] =
      .ok (.selectQuery [.constant (.int 1)] none none none none
        (some (.bool true)) none) ∧
    (match (Value.bool true : Value) with
      | .bool _ => true
      | _ => false) = true ∧
    Value.isInstInt (.bool true) = true := ⟨rfl, rfl, rfl⟩

end HogQL
